import Mathlib

/-!
Verification development for the WhatsApp delayed-message scheduler.

This file gives a shallow embedding of the repository's core logic:

* `backend/database.js`   — the scheduled-message store (modelled as a list
  of records; SQL `UPDATE ... WHERE id = ?` becomes a map over the list).
* `backend/scheduler.js`  — the delivery scheduler tick
  (`sendScheduledMessages`), split into its flag-guard phase (`tickEnter`)
  and its processing phase (`tickBody`) so that overlapping invocations can
  be reasoned about explicitly.
* `backend/timeParser.js` — the Israel-DST offset computation and the
  time-command parsers (the `chrono` natural-language recognizer is an
  oracle parameter).
* `backend/messageHandler.js` — the inbound-message handler (commands,
  forwarded-message correlation, disambiguation, recipient resolution).
* the `part_005` revision of the message handler, whose correlator cache
  implements the TTL filter and the periodic purge.

Timestamps are integers (epoch milliseconds); machine-level Date objects
are modelled as civil date-times plus an explicit day-count conversion.
External collaborators (WhatsApp client, contact directory, chrono) are
oracle parameters supplied through an environment record.
-/

namespace WSched

/-- Status of a scheduled message, from the `status` column of
`scheduled_messages` in `backend/database.js`. -/
inductive Status where
  | pending
  | sent
  | failed
  | cancelled
deriving DecidableEq, Repr

/-- A row of the `scheduled_messages` table. -/
structure Record where
  id : Nat
  recipient : String
  recipientName : String
  message : String
  scheduledTime : Int
  status : Status
  errorMessage : Option String
  updatedAt : Int
deriving DecidableEq, Repr

/-- Ordering used by `ORDER BY scheduled_time ASC`. -/
def byTime (a b : Record) : Prop := a.scheduledTime ≤ b.scheduledTime

instance : DecidableRel byTime := fun a b => Int.decLe a.scheduledTime b.scheduledTime

instance : IsTotal Record byTime := ⟨fun a b => Int.le_total a.scheduledTime b.scheduledTime⟩

instance : IsTrans Record byTime := ⟨fun _ _ _ => Int.le_trans⟩

/-- Embedding of `updateMessageStatus` (`backend/database.js` lines 81–98):
an unconditional `UPDATE scheduled_messages SET status, updated_at,
error_message WHERE id = ?`.  Note there is no guard on the current
status. -/
def updateMessageStatus (db : List Record) (i : Nat) (st : Status)
    (err : Option String) (now : Int) : List Record :=
  db.map fun r =>
    if r.id = i then { r with status := st, errorMessage := err, updatedAt := now } else r

/-- Embedding of `getPendingMessages` (`backend/database.js` lines 61–78):
`SELECT * WHERE status = 'pending' AND scheduled_time <= now ORDER BY
scheduled_time ASC`. -/
def getPendingMessages (now : Int) (db : List Record) : List Record :=
  List.insertionSort byTime
    (db.filter fun r => decide (r.status = Status.pending ∧ r.scheduledTime ≤ now))

/-- Lookup of the row with a given id (primary-key lookup). -/
def findRecord (db : List Record) (i : Nat) : Option Record :=
  db.find? fun r => r.id == i

/-- State of the scheduler module (`backend/scheduler.js`): the module-level
`isProcessing` flag, the WhatsApp client readiness, and the store. -/
structure SchedulerState where
  isProcessing : Bool
  clientReady : Bool
  db : List Record
deriving DecidableEq, Repr

/-- First phase of `sendScheduledMessages` (`backend/scheduler.js` lines
5–18): the re-entrancy guard.  Returns the updated state and whether the
body may run.  Mirrors `if (isProcessing) return; if (!isClientReady())
return; isProcessing = true`. -/
def tickEnter (s : SchedulerState) : SchedulerState × Bool :=
  if s.isProcessing then (s, false)
  else if !s.clientReady then (s, false)
  else ({ s with isProcessing := true }, true)

/-- Dispatch loop of `sendScheduledMessages` (`backend/scheduler.js` lines
31–78).  `outcome m = none` models `sendMessage` succeeding, `outcome m =
some e` models it throwing with error text `e` (then the status becomes
`failed` with that text).  The best-effort `sendMessageToSelf`
notifications have no effect on the store and are omitted.  Returns the
updated store and the dispatch log in processing order. -/
def processMessages (outcome : Record → Option String) (now : Int) :
    List Record → List Record → List Record × List (Nat × Status)
  | db, [] => (db, [])
  | db, m :: rest =>
    match outcome m with
    | none =>
      let db1 := updateMessageStatus db m.id Status.sent none now
      let res := processMessages outcome now db1 rest
      (res.1, (m.id, Status.sent) :: res.2)
    | some e =>
      let db1 := updateMessageStatus db m.id Status.failed (some e) now
      let res := processMessages outcome now db1 rest
      (res.1, (m.id, Status.failed) :: res.2)

/-- Second phase of `sendScheduledMessages`: fetch the due set, dispatch it
sequentially, and clear the `isProcessing` flag (the `finally` block). -/
def tickBody (outcome : Record → Option String) (now : Int)
    (s : SchedulerState) : SchedulerState × List (Nat × Status) :=
  let messages := getPendingMessages now s.db
  if messages.isEmpty then ({ s with isProcessing := false }, [])
  else
    let res := processMessages outcome now s.db messages
    ({ s with db := res.1, isProcessing := false }, res.2)

/-- One complete invocation of `sendScheduledMessages`. -/
def sendScheduledMessages (outcome : Record → Option String) (now : Int)
    (s : SchedulerState) : SchedulerState × List (Nat × Status) :=
  let enter := tickEnter s
  if enter.2 then tickBody outcome now enter.1 else (enter.1, [])

/-! ## Time parser (`backend/timeParser.js`)

JavaScript `Date` objects are modelled as civil date-times; the deployment
runs with the system timezone at UTC, so a `Date`'s epoch-milliseconds value
is the naive wall-clock reading converted through the proleptic Gregorian
calendar.  `daysFromCivil` is the standard civil-from-days conversion;
`1970-01-01` is day `0`, a Thursday (`getDay() = 4`). -/

/-- A civil (naive) date-time as read off a JavaScript `Date` in the system
timezone: `month` is `1`–`12`, `day` is `1`–`31`. -/
structure DateTime where
  year : Int
  month : Int
  day : Int
  hour : Int
  minute : Int
  second : Int
deriving DecidableEq, Repr

/-- Days from the civil epoch 1970-01-01 (Howard Hinnant's algorithm, the
one underlying JavaScript date arithmetic). -/
def daysFromCivil (y m d : Int) : Int :=
  let y1 : Int := if m ≤ 2 then y - 1 else y
  let era : Int := (if 0 ≤ y1 then y1 else y1 - 399) / 400
  let yoe : Int := y1 - era * 400
  let mp : Int := (m + 9) % 12
  let doy : Int := (153 * mp + 2) / 5 + d - 1
  let doe : Int := yoe * 365 + yoe / 4 - yoe / 100 + doy
  era * 146097 + doe - 719468

/-- Day of week of a day count, matching JavaScript `getDay()`:
`0` = Sunday … `6` = Saturday (day `0` is Thursday). -/
def dayOfWeek (days : Int) : Int := (days + 4) % 7

def msPerDay : Int := 86400000

/-- Epoch milliseconds of a civil date-time (`Date.getTime()` under a UTC
system timezone). -/
def DateTime.toMillis (d : DateTime) : Int :=
  daysFromCivil d.year d.month d.day * msPerDay
    + (d.hour * 3600 + d.minute * 60 + d.second) * 1000

/-- Embedding of the `while (getDay() !== target) setDate(+1)` loops in
`getIsraelTimezoneOffset` (`backend/timeParser.js` lines 11–20).  The
source loop advances at most six days, since every seven consecutive days
contain each weekday; here it is unrolled into that bounded form. -/
def advanceToDow (base target : Int) : Int :=
  if dayOfWeek base = target then base
  else if dayOfWeek (base + 1) = target then base + 1
  else if dayOfWeek (base + 2) = target then base + 2
  else if dayOfWeek (base + 3) = target then base + 3
  else if dayOfWeek (base + 4) = target then base + 4
  else if dayOfWeek (base + 5) = target then base + 5
  else base + 6

/-- Embedding of `getIsraelTimezoneOffset` (`backend/timeParser.js` lines
6–28), in minutes.  DST start: first Friday on/after March 26; DST end:
first Sunday on/after October 25; both at local midnight.  Inside
`[start, end)` the offset is 180 minutes (UTC+3), otherwise 120 (UTC+2).
The argument is the instant being classified (`date.getFullYear()` picks
the year; the comparisons are on `Date` values, i.e. epoch ms). -/
def getIsraelTimezoneOffset (d : DateTime) : Int :=
  let dstStart : Int := advanceToDow (daysFromCivil d.year 3 26) 5
  let dstEnd : Int := advanceToDow (daysFromCivil d.year 10 25) 0
  if dstStart * msPerDay ≤ d.toMillis ∧ d.toMillis < dstEnd * msPerDay then 180 else 120

/-- Embedding of `convertFromIsraelTimeToUTC` (`backend/timeParser.js`
lines 30–36): reinterpret a naive Israel-local reading as UTC by
subtracting the offset (in minutes).  Returns epoch milliseconds. -/
def convertFromIsraelTimeToUTC (d : DateTime) : Int :=
  d.toMillis - getIsraelTimezoneOffset d * 60 * 1000

/-! ## String helpers mirroring the JavaScript regular expressions

JavaScript strings are modelled as `String`/`List Char`; `\s` is
`Char.isWhitespace`, `\w` is `Char.isAlphanum || '_'`, and `.` matches any
character except `'\n'`. -/

/-- Lowercasing (`String.prototype.toLowerCase`), defined over the
character list so that it reduces in the kernel. -/
def jsToLower (s : String) : String := String.mk (s.toList.map Char.toLower)

/-- Whitespace trim (`String.prototype.trim`). -/
def jsTrim (s : String) : String :=
  String.mk (((s.toList.dropWhile Char.isWhitespace).reverse.dropWhile
    Char.isWhitespace).reverse)

/-- Prefix test (`String.prototype.startsWith`). -/
def jsStartsWith (s pre : String) : Bool := pre.toList.isPrefixOf s.toList

/-- Mirrors `text.replace(/^\/cmd\s+/i, '')`: if `s` starts
(case-insensitively) with `cmd` followed by at least one whitespace
character, drop that head; otherwise return `s` unchanged.  `cmd` is given
in lowercase. -/
def stripCommandHead (cmd s : String) : String :=
  let cs := s.toList
  let n := cmd.length
  if jsToLower (String.mk (cs.take n)) = cmd then
    match cs.drop n with
    | c :: rest =>
      if c.isWhitespace then String.mk ((c :: rest).dropWhile Char.isWhitespace) else s
    | [] => s
  else s

/-- Capture of a trailing `\s+(.+)$` (with `.` not matching `'\n'`): the
greedy whitespace run gives back at most enough for `(.+)` to be nonempty,
and the captured remainder may not contain a newline. -/
def wsRestCapture (after1 : List Char) : Option (List Char) :=
  let w := after1.takeWhile Char.isWhitespace
  if w.isEmpty || after1.length < 2 then none
  else
    let j := min w.length (after1.length - 1)
    let r := after1.drop j
    if r.contains '\n' then none else some r

/-- Mirrors `/^to\s+([^\s]+)\s+(.+)$/i`: returns the captured recipient
token and remainder. -/
def matchToRecipient : List Char → Option (List Char × List Char)
  | t :: o :: rest =>
    if t.toLower = 't' ∧ o.toLower = 'o' then
      let w := rest.takeWhile Char.isWhitespace
      if w.isEmpty then none
      else
        let afterWs := rest.drop w.length
        let tok := afterWs.takeWhile fun c => !c.isWhitespace
        if tok.isEmpty then none
        else
          match wsRestCapture (afterWs.drop tok.length) with
          | some r => some (tok, r)
          | none => none
    else none
  | _ => none

/-- Mirrors `/^(\d+)\s+(.+)$/`: a leading digit run, whitespace, and the
remainder. -/
def matchNumberRecipient (cs : List Char) : Option (List Char × List Char) :=
  let ds := cs.takeWhile Char.isDigit
  if ds.isEmpty then none
  else
    match wsRestCapture (cs.drop ds.length) with
    | some r => some (ds, r)
    | none => none

def isWordChar (c : Char) : Bool := c.isAlphanum || c = '_'

/-- Does `pat` occur here, followed by `\s+` and then a digit
(the `pat\s+\d+` tail of the classification regexes)? -/
def patThenNumberHere (pat cs : List Char) : Bool :=
  pat.isPrefixOf cs &&
  (let after := cs.drop pat.length
   let w := after.takeWhile Char.isWhitespace
   !w.isEmpty &&
   (match after.drop w.length with
    | c :: _ => c.isDigit
    | [] => false))

/-- Scan for `\bpat\s+\d+` anywhere in the text (`prev` is the character
before the current position, for the word boundary `\b`). -/
def boundarySearch (pat : List Char) : Option Char → List Char → Bool
  | _, [] => false
  | prev, c :: rest =>
    ((match prev with
      | none => true
      | some p => !isWordChar p) && patThenNumberHere pat (c :: rest))
    || boundarySearch pat (some c) rest

/-- Embedding of the relative-time classifier (`backend/timeParser.js`
lines 86–87): `/\bin\s+\d+/.test(ts) || /\bafter\s+\d+/.test(ts)` on the
lowercased time string. -/
def hasRelativePattern (s : String) : Bool :=
  boundarySearch "in".toList none s.toList
    || boundarySearch "after".toList none s.toList

/-- Result of `chrono.parse(text, new Date(), forwardDate)[0]`: the match
position in UTF-16 units (modelled as characters), the matched text, and
`match.start.date()` as a civil date-time.  `chrono` itself is external;
parsers receive its result as an oracle `String → Option ChronoMatch`
(`none` models an empty parse result). -/
structure ChronoMatch where
  index : Nat
  text : String
  date : DateTime
deriving DecidableEq, Repr

/-- Result record of `parseTimeCommand`. -/
structure ParsedReply where
  scheduledTime : Int
  message : String
  timeString : String
  originalText : String
  recipient : Option String
deriving DecidableEq, Repr

/-- Recipient extraction of `parseTimeCommand` (`backend/timeParser.js`
lines 42–60): strip the `/reply` head, then try the `to <token>` and the
leading-index forms; returns the optional recipient token and the
remaining time text. -/
def replyRecTime (text : String) : Option String × String :=
  let timeText0 := jsTrim (stripCommandHead "/reply" text)
  match matchToRecipient timeText0.toList with
  | some (tok, rest) => (some (String.mk tok), String.mk rest)
  | none =>
    match matchNumberRecipient timeText0.toList with
    | some (ds, rest) => (some (String.mk ds), String.mk rest)
    | none => ((none : Option String), timeText0)

/-- Embedding of `parseTimeCommand` (`backend/timeParser.js` lines
38–111). -/
def parseTimeCommand (chronoParse : String → Option ChronoMatch)
    (text : String) : Option ParsedReply :=
  let recTime := replyRecTime text
  match chronoParse recTime.2 with
  | none => none
  | some m =>
    let cs := recTime.2.toList
    let timeString := String.mk (cs.take (m.index + m.text.length))
    let message := jsTrim (String.mk (cs.drop (m.index + m.text.length)))
    if message.isEmpty then none
    else
      let isRelativeTime := hasRelativePattern (jsToLower timeString)
      let scheduledTime :=
        if isRelativeTime then m.date.toMillis else convertFromIsraelTimeToUTC m.date
      some { scheduledTime := scheduledTime, message := message,
             timeString := timeString, originalText := text,
             recipient := recTime.1 }

/-- Result record of `parseSendCommand`. -/
structure ParsedSend where
  scheduledTime : Int
  message : String
  timeString : String
  originalText : String
  recipientName : String
deriving DecidableEq, Repr

/-- First index at which `needle` occurs in the list (JavaScript
`indexOf`). -/
def findSubIdx (needle : List Char) : List Char → Option Nat
  | [] => if needle.isEmpty then some 0 else none
  | c :: rest =>
    if needle.isPrefixOf (c :: rest) then some 0
    else (findSubIdx needle rest).map (· + 1)

/-- Embedding of `parseSendCommand` (`backend/timeParser.js` lines
133–228): split `name`/`time+message` at the first of `" in "` or
`" at "` (searched on the lowercased content); the separator keyword fixes
the relative/absolute classification. -/
def parseSendCommand (chronoParse : String → Option ChronoMatch)
    (text : String) : Option ParsedSend :=
  let content := jsTrim (stripCommandHead "/send" text)
  if content.isEmpty then none
  else
    let lower := (jsToLower content).toList
    let ccs := content.toList
    let inIdx := findSubIdx " in ".toList lower
    let atIdx := findSubIdx " at ".toList lower
    let sep : Option (Nat × Bool) :=
      match inIdx, atIdx with
      | some i, some a => if i < a then some (i, true) else some (a, false)
      | some i, none => some (i, true)
      | none, some a => some (a, false)
      | none, none => none
    match sep with
    | none => none
    | some (sepIdx, isIn) =>
      let recipientName := jsTrim (String.mk (ccs.take sepIdx))
      if recipientName.isEmpty then none
      else
        let timeAndMessage :=
          if isIn then jsTrim (String.mk (ccs.drop (sepIdx + 4)))
          else jsTrim (String.mk (ccs.drop (sepIdx + 1)))
        match chronoParse timeAndMessage with
        | none => none
        | some m =>
          let tcs := timeAndMessage.toList
          let timeString := String.mk (tcs.take (m.index + m.text.length))
          let message := jsTrim (String.mk (tcs.drop (m.index + m.text.length)))
          if message.isEmpty then none
          else
            let scheduledTime :=
              if isIn then m.date.toMillis else convertFromIsraelTimeToUTC m.date
            some { scheduledTime := scheduledTime, message := message,
                   timeString := timeString, originalText := text,
                   recipientName := recipientName }

/-- Inverse civil conversion (Howard Hinnant's `civil_from_days`), used to
read a year/month/day back off an epoch-day count. -/
def civilFromDays (z0 : Int) : Int × Int × Int :=
  let z := z0 + 719468
  let era : Int := (if 0 ≤ z then z else z - 146096) / 146097
  let doe := z - era * 146097
  let yoe := (doe - doe / 1460 + doe / 36524 - doe / 146096) / 365
  let y := yoe + era * 400
  let doy := doe - (365 * yoe + yoe / 4 - yoe / 100)
  let mp := (5 * doy + 2) / 153
  let d := doy - (153 * mp + 2) / 5 + 1
  let m := mp + (if mp < 10 then 3 else -9)
  (if m ≤ 2 then y + 1 else y, m, d)

/-- Civil date-time of an epoch-milliseconds instant (UTC system
timezone). -/
def dateTimeOfMillis (t : Int) : DateTime :=
  let days := Int.fdiv t msPerDay
  let rem := t - days * msPerDay
  let ymd := civilFromDays days
  { year := ymd.1, month := ymd.2.1, day := ymd.2.2,
    hour := rem / 3600000, minute := rem % 3600000 / 60000,
    second := rem % 60000 / 1000 }

def monthAbbrev (m : Int) : String :=
  if m = 1 then "Jan" else if m = 2 then "Feb" else if m = 3 then "Mar"
  else if m = 4 then "Apr" else if m = 5 then "May" else if m = 6 then "Jun"
  else if m = 7 then "Jul" else if m = 8 then "Aug" else if m = 9 then "Sep"
  else if m = 10 then "Oct" else if m = 11 then "Nov" else "Dec"

def pad2 (n : Int) : String :=
  if n < 10 then "0" ++ toString n else toString n

/-- Embedding of `formatIsraelTime` (`backend/timeParser.js` lines
113–131).  Under a UTC system timezone `getTimezoneOffset()` is `0`, so
the displayed date is `t - hours·3600000` rendered in UTC; the `en-US`
locale rendering is collapsed to a fixed `MMM d, yyyy, HH:mm` layout. -/
def formatIsraelTime (t : Int) : String :=
  let offset := getIsraelTimezoneOffset (dateTimeOfMillis t)
  let hours := offset / 60
  let d := dateTimeOfMillis (t - hours * 60 * 60 * 1000)
  monthAbbrev d.month ++ " " ++ toString d.day ++ ", " ++ toString d.year
    ++ ", " ++ pad2 d.hour ++ ":" ++ pad2 d.minute
    ++ " (Israel Time, UTC+" ++ toString hours ++ ")"

/-! ## Association-list model of JavaScript `Map` -/

/-- `Map.get` (keys are strings). -/
def alookup {α : Type} (m : List (String × α)) (k : String) : Option α :=
  (m.find? fun p => p.1 == k).map Prod.snd

/-- `Map.set`: replace in place if the key exists, else append. -/
def aset {α : Type} (m : List (String × α)) (k : String) (v : α) :
    List (String × α) :=
  if (m.find? fun p => p.1 == k).isSome then
    m.map fun p => if p.1 == k then (k, v) else p
  else m ++ [(k, v)]

/-- `Map.delete`. -/
def aerase {α : Type} (m : List (String × α)) (k : String) :
    List (String × α) :=
  m.filter fun p => p.1 != k

/-! ## Forwarded-message correlator cache

`incomingMessageCache` maps exact message text to the list of senders who
sent it.  `cacheIncomingMessage` is identical in `backend/messageHandler.js`
and the `part_005` revision; the TTL-filtered lookup and the periodic purge
are implemented in the `part_005` revision (its `backend/messageHandler.js`
counterpart leaves them commented out). -/

/-- One cached observation: `{ senderId, senderName, chatName, timestamp }`. -/
structure CacheEntry where
  senderId : String
  senderName : String
  chatName : String
  timestamp : Int
deriving DecidableEq, Repr

/-- Embedding of `cacheIncomingMessage`: append an entry under the exact
message text, skipping empty/whitespace-only bodies. -/
def cacheIncomingMessage (cache : List (String × List CacheEntry))
    (messageBody senderId senderName chatName : String) (timestamp : Int) :
    List (String × List CacheEntry) :=
  if (jsTrim messageBody).isEmpty then cache
  else
    aset cache messageBody
      ((alookup cache messageBody).getD []
        ++ [{ senderId := senderId, senderName := senderName,
              chatName := chatName, timestamp := timestamp }])

/-- Embedding of `searchCachedMessages` from `backend/messageHandler.js`
(lines 42–56): returns all cached entries for the exact text; the TTL
filter there is commented out (`TODO: Filter by TTL when implemented`). -/
def searchCachedMessages (cache : List (String × List CacheEntry))
    (messageBody : String) : List CacheEntry :=
  match alookup cache messageBody with
  | none => []
  | some ms => ms

namespace Part005

/-- Retention window of the `part_005` revision: 3 hours in
milliseconds. -/
def MESSAGE_CACHE_DURATION : Int := 3 * 60 * 60 * 1000

/-- Embedding of `searchCachedMessages` from the `part_005` revision
(lines 40–53): lookup filtered to entries with `timestamp > now −
MESSAGE_CACHE_DURATION`. -/
def searchCachedMessages (cache : List (String × List CacheEntry))
    (messageBody : String) (now : Int) : List CacheEntry :=
  match alookup cache messageBody with
  | none => []
  | some ms =>
    ms.filter fun m => decide (now - MESSAGE_CACHE_DURATION < m.timestamp)

/-- Embedding of `cleanupMessageCache` from the `part_005` revision (lines
56–82), run by an hourly `setInterval` independent of lookups: drop expired
entries, removing a text's slot entirely when all its entries expired. -/
def cleanupMessageCache (cache : List (String × List CacheEntry))
    (now : Int) : List (String × List CacheEntry) :=
  cache.filterMap fun p =>
    let recentSenders :=
      p.2.filter fun m => decide (now - MESSAGE_CACHE_DURATION < m.timestamp)
    if recentSenders.isEmpty then none else some (p.1, recentSenders)

end Part005

/-! ## Message handler (`backend/messageHandler.js`)

The handler's module-level mutable maps become `HandlerState`; external
collaborators (WhatsApp client, contact directory, chrono, the store's
success/failure) are oracles in `Env`.  The handler returns the new state
plus the list of texts sent to the owner via `sendMessageToSelf` (modelled
as succeeding; claims about notification are conditioned on the
confirmation being sent).  Unread stored fields (`forwardingScore`, the
raw message object) are dropped; the stored message object is represented
by its body. -/

/-- An entry of a recent-contacts snapshot (`getRecentContacts` result). -/
structure Contact where
  id : String
  name : String
  number : String
  timestamp : Int
deriving DecidableEq, Repr

/-- A `whatsapp-web.js` contact as used by `getContacts` /
`getContactById`. -/
structure WContact where
  idSerialized : String
  name : Option String
  pushname : Option String
  number : Option String
deriving DecidableEq, Repr

/-- One option of a forwarded-sender disambiguation
(`{ chatId, contactName, timestamp }`). -/
structure MatchOpt where
  chatId : String
  contactName : String
  timestamp : Int
deriving DecidableEq, Repr

/-- Per-chat forwarded-message context (`lastForwardedMessage` values). -/
structure FwdContext where
  timestamp : Option Int
  fromId : String
  messageBody : Option String
  matchOptions : Option (List MatchOpt)
  originalSender : Option String
  searchedForOriginal : Bool
  foundMatches : Nat
deriving DecidableEq, Repr

/-- Per-chat pending `/send` contact selection (`pendingSendContext`
values). -/
structure SendContext where
  matchList : List Contact  -- source field name: `matches` (a Lean keyword)
  scheduledTime : Int
  message : String
deriving DecidableEq, Repr

/-- The quoted message inspected by recipient-resolution method 2. -/
structure QuotedMsg where
  fromMe : Bool
  fromId : String
  author : Option String
  participant : Option String
  contactId : Option String
deriving DecidableEq, Repr

/-- One inbound message event, carrying the fields the handler reads. -/
structure MsgEvent where
  idSerialized : Option String
  timestamp : Option Int
  fromId : String
  author : Option String
  typ : String
  hasMedia : Bool
  isForwarded : Bool
  hasQuotedMsg : Bool
  body : Option String
  chatId : String
  chatIsGroup : Bool
  chatName : Option String
  senderContact : Option WContact
  quoted : Option QuotedMsg
deriving DecidableEq, Repr

/-- The handler's module-level mutable state plus the store. -/
structure HandlerState where
  lastForwardedMessage : List (String × FwdContext)
  pendingSendContext : List (String × SendContext)
  incomingMessageCache : List (String × List CacheEntry)
  processedMessageIds : List String
  db : List Record
  nextId : Nat
deriving DecidableEq, Repr

/-- External collaborators and configuration.  `recentContacts` is the
snapshot produced by `getRecentContacts` (its 5-minute cache over
`client.getChats()` is collapsed to this fixed snapshot);
`allContacts = none` models `client.getContacts()` throwing;
`contactById` is `client.getContactById` (`none` = throws);
`saveOk = false` models `saveScheduledMessage` rejecting. -/
structure Env where
  userPhone : String
  dedicatedGroupId : Option String
  serverStartTime : Int
  recentContacts : List Contact
  allContacts : Option (List WContact)
  contactById : String → Option WContact
  chronoParse : String → Option ChronoMatch
  now : Int
  saveOk : Bool

/-- Substring test (JavaScript `String.prototype.includes`). -/
def listContainsSub (sub : List Char) : List Char → Bool
  | [] => sub.isEmpty
  | c :: rest => sub.isPrefixOf (c :: rest) || listContainsSub sub rest

def containsSubstr (s sub : String) : Bool :=
  listContainsSub sub.toList s.toList

/-- Test for `/^\d+$/` on a string. -/
def isAllDigits (s : String) : Bool :=
  !s.isEmpty && s.toList.all Char.isDigit

/-- Numeric value of a digit string (JavaScript `parseInt` on `\d+`). -/
def parseNatDigits (s : String) : Nat :=
  s.toList.foldl (fun n c => n * 10 + (c.toNat - 48)) 0

/-- Render `${index + 1}. ${name}\n` lines (the `forEach` loops building
choice/contact lists). -/
def renderNumberedFrom : Nat → List String → String
  | _, [] => ""
  | i, n :: rest => toString i ++ ". " ++ n ++ "\n" ++ renderNumberedFrom (i + 1) rest

def renderNumbered (names : List String) : String :=
  renderNumberedFrom 1 names

/-- Insertion into the store (`saveScheduledMessage`): a new row with
status `pending`; resolves to the fresh id. -/
def saveScheduledMessage (s : HandlerState)
    (recipient recipientName message : String) (scheduledTime now : Int) :
    HandlerState × Nat :=
  let newRow : Record :=
    { id := s.nextId, recipient := recipient,
      recipientName := recipientName, message := message,
      scheduledTime := scheduledTime, status := Status.pending,
      errorMessage := none, updatedAt := now }
  ({ s with db := s.db ++ [newRow], nextId := s.nextId + 1 }, s.nextId)

/-- Forwarded-message branch (`messageHandler.js` lines 436–519): search
the correlator cache for the original sender; zero matches prompt for
`/list`, one match auto-selects, several store `matchOptions` and ask the
owner to choose.  (`searchCachedMessages` cannot throw in the model, so
the catch-fallback of lines 507–518 is unreachable.) -/
def forwardedBranch (s : HandlerState) (msg : MsgEvent)
    (messageBody : String) : HandlerState × List String :=
  let cachedMatches := searchCachedMessages s.incomingMessageCache messageBody
  let found := cachedMatches.map fun c =>
    ({ chatId := c.senderId, contactName := c.senderName,
       timestamp := c.timestamp } : MatchOpt)
  match found with
  | [] =>
    let ctx : FwdContext :=
      { timestamp := msg.timestamp, fromId := msg.fromId,
        messageBody := some messageBody, matchOptions := none,
        originalSender := none, searchedForOriginal := true,
        foundMatches := 0 }
    ({ s with lastForwardedMessage := aset s.lastForwardedMessage msg.chatId ctx },
     ["⚠️ Could not find who sent this message in your recent chats.\n\nTo schedule a reply:\n1. Send /list to see contacts\n2. Use /reply [number] in [time] message"])
  | [mtch] =>
    let ctx : FwdContext :=
      { timestamp := msg.timestamp, fromId := mtch.chatId,
        messageBody := some messageBody, matchOptions := none,
        originalSender := some mtch.contactName,
        searchedForOriginal := true, foundMatches := 1 }
    ({ s with lastForwardedMessage := aset s.lastForwardedMessage msg.chatId ctx },
     ["✅ Found original sender: *" ++ mtch.contactName ++ "*\n\nNow send:\n/reply in [time] [message]\n\nExample: /reply in 2 hours hey there!"])
  | _ =>
    let ctx : FwdContext :=
      { timestamp := msg.timestamp, fromId := msg.fromId,
        messageBody := some messageBody, matchOptions := some found,
        originalSender := none, searchedForOriginal := true,
        foundMatches := found.length }
    ({ s with lastForwardedMessage := aset s.lastForwardedMessage msg.chatId ctx },
     ["❓ Found " ++ toString found.length ++ " people who sent this message:\n\n"
        ++ renderNumbered (found.map fun m => m.contactName)
        ++ "\nReply with the number of who you want to reply to, then use:\n/reply in [time] [message]"])

/-- Numeric selection from stored forwarded-sender `matchOptions`
(`messageHandler.js` lines 521–548): a valid index rewrites the context to
the chosen sender and clears `matchOptions`; an invalid one reports the
valid range and leaves the state intact. -/
def fwdSelection (s : HandlerState) (msg : MsgEvent) (messageBody : String)
    (fc : FwdContext) (opts : List MatchOpt) : HandlerState × List String :=
  let selection : Int := (parseNatDigits (jsTrim messageBody) : Int) - 1
  if 0 ≤ selection ∧ selection < (opts.length : Int) then
    match opts[selection.toNat]? with
    | some sel =>
      let ctx : FwdContext :=
        { timestamp := fc.timestamp, fromId := sel.chatId,
          messageBody := fc.messageBody, matchOptions := none,
          originalSender := some sel.contactName,
          searchedForOriginal := true, foundMatches := 1 }
      ({ s with lastForwardedMessage := aset s.lastForwardedMessage msg.chatId ctx },
       ["✅ Selected: *" ++ sel.contactName ++ "*\n\nNow send:\n/reply in [time] [message]\n\nExample: /reply in 2 hours hey there!"])
    | none => (s, [])
  else
    (s, ["❌ Invalid selection: " ++ messageBody
      ++ "\n\nPlease choose a number between 1 and " ++ toString opts.length])

/-- Numeric selection for a pending `/send` contact choice
(`messageHandler.js` lines 551–589): a valid index clears the context and
persists the draft; note there is no past-instant check on this path. -/
def sendSelection (env : Env) (s : HandlerState) (msg : MsgEvent)
    (messageBody : String) (sc : SendContext) : HandlerState × List String :=
  let selection : Int := (parseNatDigits (jsTrim messageBody) : Int) - 1
  if 0 ≤ selection ∧ selection < (sc.matchList.length : Int) then
    match sc.matchList[selection.toNat]? with
    | some contact =>
      let s2 := { s with pendingSendContext := aerase s.pendingSendContext msg.chatId }
      if env.saveOk then
        let saved := saveScheduledMessage s2 contact.id contact.name
          sc.message sc.scheduledTime env.now
        (saved.1,
         ["✅ Message scheduled!\n\n📧 To: *" ++ contact.name
            ++ "*\n💬 Message: \"" ++ sc.message
            ++ "\"\n⏰ Time: " ++ formatIsraelTime sc.scheduledTime])
      else (s2, ["❌ Error scheduling message. Please try again."])
    | none => (s, [])
  else
    (s, ["❌ Invalid selection. Please choose a number between 1 and "
      ++ toString sc.matchList.length])

/-- The `/send` command (`messageHandler.js` lines 592–665).  Note that
none of its save paths checks the resolved instant against the current
time. -/
def sendCommand (env : Env) (s : HandlerState) (msg : MsgEvent)
    (messageBody : String) : HandlerState × List String :=
  match parseSendCommand env.chronoParse messageBody with
  | none =>
    (s, ["❌ Could not parse /send command.\n\nFormat: `/send [name] in [time] [message]`\n\nExample: /send John in 2 hours Hey there!"])
  | some parsed =>
    let searchTerm := jsToLower parsed.recipientName
    let found := env.recentContacts.filter fun c =>
      containsSubstr (jsToLower c.name) searchTerm || containsSubstr c.number searchTerm
    match found with
    | [] =>
      (s, ["❌ No contacts found matching \"*" ++ parsed.recipientName
        ++ "*\"\n\nSend /list to see all contacts."])
    | [contact] =>
      if env.saveOk then
        let saved := saveScheduledMessage s contact.id contact.name
          parsed.message parsed.scheduledTime env.now
        (saved.1,
         ["✅ Message scheduled!\n\n📧 To: *" ++ contact.name
           ++ "*\n💬 Message: \"" ++ parsed.message
           ++ "\"\n⏰ Time: " ++ formatIsraelTime parsed.scheduledTime])
      else (s, ["❌ Error scheduling message. Please try again."])
    | _ =>
      let sc : SendContext :=
        { matchList := found, scheduledTime := parsed.scheduledTime,
          message := parsed.message }
      ({ s with pendingSendContext := aset s.pendingSendContext msg.chatId sc },
       ["❓ Found " ++ toString found.length ++ " contacts matching \"*"
         ++ parsed.recipientName ++ "*\":\n\n"
         ++ renderNumbered (found.map fun c => c.name)
         ++ "\nReply with the number to schedule the message."])

/-- The `/list` command (`messageHandler.js` lines 668–691). -/
def listCommand (env : Env) (s : HandlerState) : HandlerState × List String :=
  if env.recentContacts.isEmpty then (s, ["❌ No recent contacts found."])
  else
    (s, ["📋 *Recent Contacts*\n\nTo schedule a reply, use:\n`/reply [number] in [time] [message]`\n\n"
      ++ renderNumbered (env.recentContacts.map fun c => c.name)
      ++ "\n💡 Example: /reply 1 in 2 hours hey there!"])

/-- One entry of the `/show` listing. -/
def renderShowEntry (i : Nat) (m : Record) : String :=
  "*" ++ toString (i + 1) ++ ". ID: " ++ toString m.id ++ "*\n📧 To: "
    ++ (if m.recipientName.isEmpty then m.recipient else m.recipientName)
    ++ "\n💬 Message: \"" ++ String.mk (m.message.toList.take 50)
    ++ (if 50 < m.message.length then "..." else "")
    ++ "\"\n⏰ Time: " ++ formatIsraelTime m.scheduledTime ++ "\n\n"

def renderShowEntries : Nat → List Record → String
  | _, [] => ""
  | i, m :: rest => renderShowEntry i m ++ renderShowEntries (i + 1) rest

/-- The `/show` command (`messageHandler.js` lines 694–728); it lists the
result of `getPendingMessages` (pending rows already due). -/
def showCommand (env : Env) (s : HandlerState) : HandlerState × List String :=
  let msgs := getPendingMessages env.now s.db
  if msgs.isEmpty then
    (s, ["📭 *No scheduled messages*\n\nYou have no pending messages to send."])
  else
    (s, ["📬 *Scheduled Messages* (" ++ toString msgs.length ++ ")\n\n"
      ++ renderShowEntries 0 msgs ++ "\n💡 To cancel: /cancel [id]"])

/-- Match of `/^\/cancel\s+(\d+)$/i`. -/
def matchCancelId (s : String) : Option Nat :=
  let cs := s.toList
  if jsToLower (String.mk (cs.take 7)) = "/cancel" then
    let rest := cs.drop 7
    let w := rest.takeWhile Char.isWhitespace
    if w.isEmpty then none
    else
      let ds := rest.drop w.length
      if !ds.isEmpty && ds.all Char.isDigit then
        some (parseNatDigits (String.mk ds))
      else none
  else none

/-- The `/cancel` command (`messageHandler.js` lines 731–755): an
unconditional `updateMessageStatus(id, 'cancelled', 'Cancelled by user')`
regardless of the record's current status (the store update cannot fail in
the model). -/
def cancelCommand (env : Env) (s : HandlerState) (messageBody : String) :
    HandlerState × List String :=
  match matchCancelId messageBody with
  | none =>
    (s, ["❌ Invalid format.\n\nUsage: `/cancel [id]`\n\nExample: /cancel 5\n\nUse /show to see message IDs."])
  | some mid =>
    let db2 := updateMessageStatus s.db mid Status.cancelled
      (some "Cancelled by user") env.now
    ({ s with db := db2 },
     ["✅ *Message " ++ toString mid ++ " cancelled*\n\nThe scheduled message has been cancelled and will not be sent.\n\nUse /show to see remaining messages."])

/-- Test for `/^\d{1,2}$/` (a contact index). -/
def isIndexToken (s : String) : Bool :=
  let cs := s.toList
  (cs.length == 1 || cs.length == 2) && cs.all Char.isDigit

/-- Test for `/^[\d+]{3,}$/ || startsWith('+')` (a phone-like token). -/
def isPhoneToken (s : String) : Bool :=
  (3 ≤ s.toList.length && s.toList.all fun c => c.isDigit || c == '+')
    || jsStartsWith s "+"

/-- Case-insensitive substring match of `rec` against a contact's `name`
or `pushname` (the `find` predicate of the name-search strategy). -/
def wcontactNameMatches (c : WContact) (rec : String) : Bool :=
  (match c.name with
   | some n => containsSubstr (jsToLower n) (jsToLower rec)
   | none => false)
  || (match c.pushname with
      | some n => containsSubstr (jsToLower n) (jsToLower rec)
      | none => false)

/-- Recipient-resolution method 1 — explicit token (`messageHandler.js`
lines 782–834).  `Sum.inl` is a terminal return (state unchanged, the
given owner notifications); `Sum.inr` means resolution continues with the
given (possibly absent) recipient id.  An out-of-range contact index
notifies the owner; a failed free-text name search (or a throwing
`getContacts`) returns silently — no notification is sent. -/
def resolveExplicit (env : Env) (s : HandlerState) (rec : String) :
    Sum (HandlerState × List String) String :=
  if isIndexToken rec then
    let contactIndex : Int := (parseNatDigits rec : Int) - 1
    let contacts := env.recentContacts
    if 0 ≤ contactIndex ∧ contactIndex < (contacts.length : Int) then
      match contacts[contactIndex.toNat]? with
      | some c => Sum.inr c.id
      | none => Sum.inl (s, [])
    else
      Sum.inl (s, ["❌ Invalid contact number: " ++ rec
        ++ "\n\nValid range: 1-" ++ toString contacts.length
        ++ "\n\nSend /list to see your contacts."])
  else if isPhoneToken rec then
    Sum.inr (String.mk (rec.toList.filter fun c => c != '+') ++ "@c.us")
  else
    match env.allContacts with
    | none => Sum.inl (s, [])
    | some contacts =>
      match contacts.find? (fun c => wcontactNameMatches c rec) with
      | some c => Sum.inr c.idSerialized
      | none => Sum.inl (s, [])

/-- Recipient-resolution method 2 — quoted message (`messageHandler.js`
lines 837–902): sender field, then author, then `_data.participant`, then
the message's contact, the first one differing from the owner. -/
def resolveQuoted (env : Env) (msg : MsgEvent) : Option String :=
  if !msg.hasQuotedMsg then none
  else
    match msg.quoted with
    | none => none
    | some q =>
      let ownJid := env.userPhone ++ "@c.us"
      let m123 : Option String :=
        if !q.fromMe && !q.fromId.isEmpty && q.fromId != ownJid then
          some q.fromId
        else if (match q.author with
                 | some a => !a.isEmpty && a != ownJid
                 | none => false) then
          q.author
        else
          match q.participant with
          | some p => if !p.isEmpty && p != ownJid then some p else none
          | none => none
      match m123 with
      | some r => some r
      | none =>
        match q.contactId with
        | some cid => if cid != ownJid then some cid else none
        | none => none

/-- Display-name enrichment (`messageHandler.js` lines 946–955):
`getContactById`, falling back to the numeric part of the id. -/
def resolveRecipientName (env : Env) (recipientId : String) : String :=
  match env.contactById recipientId with
  | some c =>
    (((c.name).orElse fun _ => c.pushname).orElse fun _ => c.number).getD recipientId
  | none =>
    let phonePart := String.mk (recipientId.toList.takeWhile fun c => c != '@')
    if phonePart.isEmpty then recipientId else phonePart

/-- Persist step of `/reply` (`messageHandler.js` lines 961–998): drop the
command when the resolved instant is not strictly in the future; otherwise
save, confirm, and clear the forwarded context for this chat (a rejected
save is logged only — no notification, no context change). -/
def replyPersist (env : Env) (s : HandlerState) (msg : MsgEvent)
    (parsed : ParsedReply) (recipientId : String) :
    HandlerState × List String :=
  let recipientName := resolveRecipientName env recipientId
  if parsed.scheduledTime ≤ env.now then (s, [])
  else if env.saveOk then
    let saved := saveScheduledMessage s recipientId recipientName
      parsed.message parsed.scheduledTime env.now
    let s2 := { saved.1 with
      lastForwardedMessage := aerase saved.1.lastForwardedMessage msg.chatId }
    (s2, ["✅ Scheduled reply to *" ++ recipientName ++ "*\n\n📅 Time: "
      ++ formatIsraelTime parsed.scheduledTime ++ "\n💬 Message: \""
      ++ parsed.message ++ "\"\n\nID: " ++ toString saved.2])
  else (s, [])

/-- The `/reply` command (`messageHandler.js` lines 763–998): parse, then
resolve the recipient by explicit token, quoted message, or forwarded
context; with no recipient, prompt with the contacts list. -/
def replyCommand (env : Env) (s : HandlerState) (msg : MsgEvent)
    (messageBody : String) : HandlerState × List String :=
  match parseTimeCommand env.chronoParse messageBody with
  | none => (s, [])
  | some parsed =>
    let afterM1 : Sum (HandlerState × List String) (Option String) :=
      match parsed.recipient with
      | some rec =>
        match resolveExplicit env s rec with
        | Sum.inl out => Sum.inl out
        | Sum.inr rid => Sum.inr (some rid)
      | none => Sum.inr none
    match afterM1 with
    | Sum.inl out => out
    | Sum.inr m1 =>
      let m2 : Option String :=
        match m1 with
        | some r => some r
        | none => resolveQuoted env msg
      let m3 : Option String :=
        match m2 with
        | some r => some r
        | none =>
          match alookup s.lastForwardedMessage msg.chatId with
          | some fc => some fc.fromId
          | none => none
      match m3 with
      | some recipientId => replyPersist env s msg parsed recipientId
      | none =>
        if env.recentContacts.isEmpty then
          (s, ["❌ No recent contacts found.\n\nTry using:\n/reply to [phone number] in 1 hour message"])
        else
          (s, ["📋 *Recent Contacts*\n\nSend `/reply [number] in [time] [message]`\n\n"
            ++ renderNumbered (env.recentContacts.map fun c => c.name)
            ++ "\n💡 Example: /reply 1 in 2 hours hey there!"])

/-- Command dispatch after the owner/forwarded/selection stages
(`messageHandler.js` lines 592–761): `/send`, `/list`, `/show`, `/cancel`,
`/reply`; anything else is silently ignored. -/
def commandDispatch (env : Env) (s : HandlerState) (msg : MsgEvent)
    (messageBody : String) : HandlerState × List String :=
  if jsStartsWith (jsToLower messageBody) "/send" then
    sendCommand env s msg messageBody
  else if jsTrim (jsToLower messageBody) == "/list" then listCommand env s
  else if jsTrim (jsToLower messageBody) == "/show" then showCommand env s
  else if jsStartsWith (jsToLower messageBody) "/cancel" then
    cancelCommand env s messageBody
  else if !(jsStartsWith (jsToLower messageBody) "/reply") then (s, [])
  else replyCommand env s msg messageBody

/-- Pending `/send` selection gate (`messageHandler.js` lines 551–589). -/
def sendSelectionCheck (env : Env) (s : HandlerState) (msg : MsgEvent)
    (messageBody : String) : HandlerState × List String :=
  match alookup s.pendingSendContext msg.chatId with
  | some sc =>
    if isAllDigits (jsTrim messageBody) then
      sendSelection env s msg messageBody sc
    else commandDispatch env s msg messageBody
  | none => commandDispatch env s msg messageBody

/-- Stages run for a message from the owner (`messageHandler.js` lines
436 onward): forwarded-message correlation, forwarded-sender selection,
pending `/send` selection, then command dispatch. -/
def processUser (env : Env) (s : HandlerState) (msg : MsgEvent)
    (messageBody : String) : HandlerState × List String :=
  if msg.isForwarded then forwardedBranch s msg messageBody
  else
    match alookup s.lastForwardedMessage msg.chatId with
    | some fc =>
      match fc.matchOptions with
      | some opts =>
        if isAllDigits (jsTrim messageBody) then
          fwdSelection s msg messageBody fc opts
        else sendSelectionCheck env s msg messageBody
      | none => sendSelectionCheck env s msg messageBody
    | none => sendSelectionCheck env s msg messageBody

/-- Owner gate (`messageHandler.js` lines 357–431): in dedicated-group
mode only the owner's messages in that group are processed; otherwise the
self-chat test and the author test decide, and a non-owner, non-forwarded
message is cached for forwarded-message correlation before being
ignored. -/
def ownerGate (env : Env) (s : HandlerState) (msg : MsgEvent)
    (messageBody : String) : HandlerState × List String :=
  match env.dedicatedGroupId with
  | some gid =>
    let normalizedGroupId :=
      if containsSubstr gid "@g.us" then gid else gid ++ "@g.us"
    if msg.chatId != normalizedGroupId then (s, [])
    else
      let author := msg.author.getD msg.fromId
      if containsSubstr author env.userPhone then
        processUser env s msg messageBody
      else (s, [])
  | none =>
    let author := msg.author.getD msg.fromId
    let isSelfChat := containsSubstr msg.chatId "@g.us" && msg.chatId == msg.fromId
    let isFromUser := containsSubstr author env.userPhone
    if !isSelfChat && !isFromUser then
      if !messageBody.isEmpty && !msg.isForwarded then
        let senderName :=
          match msg.senderContact with
          | some c =>
            (((c.name).orElse fun _ => c.pushname).orElse fun _ => c.number).getD msg.chatId
          | none => (msg.chatName).getD msg.chatId
        let cache2 := cacheIncomingMessage s.incomingMessageCache messageBody
          msg.chatId senderName ((msg.chatName).getD msg.chatId) env.now
        ({ s with incomingMessageCache := cache2 }, [])
      else (s, [])
    else processUser env s msg messageBody

/-- Embedding of `handleIncomingMessage` (`backend/messageHandler.js`
lines 180–1009): duplicate-id gate, old-message gate, marking the id as
processed, the status/broadcast/system-type filters, the body check, and
the owner gate.  Returns the new handler state and the texts sent to the
owner. -/
def handleIncomingMessage (env : Env) (s : HandlerState) (msg : MsgEvent) :
    HandlerState × List String :=
  if (match msg.idSerialized with
      | some mid => s.processedMessageIds.contains mid
      | none => false) then (s, [])
  else if (match msg.timestamp with
           | some ts => decide (ts * 1000 < env.serverStartTime)
           | none => false) then (s, [])
  else
    let s1 :=
      match msg.idSerialized with
      | some mid => { s with processedMessageIds := mid :: s.processedMessageIds }
      | none => s
    if msg.fromId == "status@broadcast" || containsSubstr msg.fromId "status" then
      (s1, [])
    else if msg.typ == "e2e_notification"
        || (msg.hasMedia && msg.typ == "image" && containsSubstr msg.fromId "broadcast") then
      (s1, [])
    else if msg.typ == "gp2" || msg.typ == "notification" || msg.typ == "protocol"
        || msg.typ == "notification_template" || msg.typ == "e2e_notification" then
      (s1, [])
    else
      match msg.body with
      | none => (s1, [])
      | some messageBody => ownerGate env s1 msg messageBody

/-- Status and error of the row with a given id. -/
def statusOf (db : List Record) (i : Nat) : Option (Status × Option String) :=
  (findRecord db i).map fun r => (r.status, r.errorMessage)

/-- Spec-side characterisation for the DST boundaries: `r` is the unique
day with weekday `target` among the seven days beginning at `start`
("the unique Friday in the 7 days beginning at the fixed spring
baseline"). -/
def isUniqueDowInWindow (start target r : Int) : Prop :=
  start ≤ r ∧ r < start + 7 ∧ dayOfWeek r = target ∧
    ∀ x, start ≤ x → x < start + 7 → dayOfWeek x = target → x = r

/-! ## Concrete fixtures used by witnesses and counterexamples -/

/-- A base environment: self-chat mode, no contacts, store accepting
writes. -/
def baseEnv : Env :=
  { userPhone := "972500000000", dedicatedGroupId := none,
    serverStartTime := 1000, recentContacts := [], allContacts := none,
    contactById := fun _ => none, chronoParse := fun _ => none,
    now := 100000000, saveOk := true }

/-- The handler state at process start. -/
def emptyState : HandlerState :=
  { lastForwardedMessage := [], pendingSendContext := [],
    incomingMessageCache := [], processedMessageIds := [], db := [],
    nextId := 1 }

/-- A message from the owner in the self-chat command channel. -/
def ownerMsg (mid body : String) : MsgEvent :=
  { idSerialized := some mid, timestamp := some 2000, fromId := "me@g.us",
    author := some "972500000000@c.us", typ := "chat", hasMedia := false,
    isForwarded := false, hasQuotedMsg := false, body := some body,
    chatId := "me@g.us", chatIsGroup := true, chatName := none,
    senderContact := none, quoted := none }

/-- Abbreviation for a freshly inserted pending row. -/
def pendingRow (i : Nat) (recipient recipientName message : String)
    (scheduledTime now : Int) : Record :=
  { id := i, recipient := recipient, recipientName := recipientName,
    message := message, scheduledTime := scheduledTime,
    status := Status.pending, errorMessage := none, updatedAt := now }

/-- A contact snapshot entry used by `/send` scenarios. -/
def johnContact : Contact :=
  { id := "john@c.us", name := "John", number := "123", timestamp := 5 }

/-- Environment for a `/send` command whose chrono result is a past
instant (naive 1970-01-01 08:00, i.e. 21600000 ms UTC after the Israel
offset, far before `now = 100000000`). -/
def sendPastEnv : Env :=
  { baseEnv with
    recentContacts := [johnContact],
    chronoParse := fun s =>
      if s = "at 8 Good morning" then
        some { index := 0, text := "at 8",
               date := { year := 1970, month := 1, day := 1,
                         hour := 8, minute := 0, second := 0 } }
      else none }

/-- A correlator cache with one expired and one live entry for the same
text (at `now = 10800100`, cutoff `100`). -/
def fixtureCache : List (String × List CacheEntry) :=
  [("hello",
    [{ senderId := "a@c.us", senderName := "A", chatName := "A", timestamp := 50 },
     { senderId := "b@c.us", senderName := "B", chatName := "B", timestamp := 200 }])]

/-- A forwarded-message context already resolved to a single sender. -/
def bobCtx : FwdContext :=
  { timestamp := some 2, fromId := "bob@c.us", messageBody := some "hello",
    matchOptions := none, originalSender := some "Bob",
    searchedForOriginal := true, foundMatches := 1 }

/-- Environment where a free-text recipient name fails to match any known
contact. -/
def nameFailEnv : Env :=
  { baseEnv with
    allContacts := some [{ idSerialized := "x@c.us", name := some "Alice",
                           pushname := none, number := none }],
    chronoParse := fun s =>
      if s = "in 5 minutes hi" then
        some { index := 0, text := "in 5 minutes",
               date := { year := 2030, month := 1, day := 1,
                         hour := 0, minute := 0, second := 0 } }
      else none }

/-- Environment with one recent contact and a chrono oracle for
"in 5 minutes hi". -/
def replyEnv : Env := { nameFailEnv with recentContacts := [johnContact] }

/-- Forwarded-message context stored for a two-option disambiguation
(the `matchOptions` branch of the forwarded-message search). -/
def twoOptCtx (msg : MsgEvent) (body : String) (e1 e2 : CacheEntry) : FwdContext :=
  { timestamp := msg.timestamp, fromId := msg.fromId, messageBody := some body,
    matchOptions := some [
      { chatId := e1.senderId, contactName := e1.senderName, timestamp := e1.timestamp },
      { chatId := e2.senderId, contactName := e2.senderName, timestamp := e2.timestamp }],
    originalSender := none, searchedForOriginal := true, foundMatches := 2 }

/-- Forwarded-message context after a numeric selection resolved to one
sender. -/
def selCtx (msg : MsgEvent) (body : String) (e : CacheEntry) : FwdContext :=
  { timestamp := msg.timestamp, fromId := e.senderId, messageBody := some body,
    matchOptions := none, originalSender := some e.senderName,
    searchedForOriginal := true, foundMatches := 1 }

/-- Handler state whose correlator cache holds "hello" from two distinct
senders. -/
def twoSenderState : HandlerState :=
  { emptyState with incomingMessageCache :=
      [("hello",
        [{ senderId := "alice@c.us", senderName := "Alice", chatName := "Alice", timestamp := 99000 },
         { senderId := "bob@c.us", senderName := "Bob", chatName := "Bob", timestamp := 99500 }])] }

/-! ## Theorems -/

lemma tickEnter_true (s : SchedulerState) (h : (tickEnter s).2 = true) :
    s.isProcessing = false ∧ s.clientReady = true ∧
      (tickEnter s).1 = { s with isProcessing := true } := by
  by_cases h1 : s.isProcessing
  · simp [tickEnter, h1] at h
  · by_cases h2 : s.clientReady
    · simp [tickEnter, h1, h2]
    · simp [tickEnter, h1, h2] at h

/-- The re-entrancy guard: an invocation that starts while a previous one
is still processing returns at once, fetching and dispatching nothing. -/
lemma tick_skipped_when_processing (outcome : Record → Option String)
    (now : Int) (s : SchedulerState) (h : s.isProcessing = true) :
    sendScheduledMessages outcome now s = (s, []) := by
  simp [sendScheduledMessages, tickEnter, h]

/-- C3: if two scheduler tick invocations overlap — the second starting
after the first has set the processing flag but before it finished — the
second returns immediately with no fetch and no dispatches, and the
completed overlapped run dispatches exactly what a single isolated tick
dispatches: the due set is processed at most once in total. -/
theorem overlapping_ticks_process_once (outcome outcome2 : Record → Option String)
    (now now2 : Int) (s : SchedulerState) (h : (tickEnter s).2 = true) :
    sendScheduledMessages outcome2 now2 (tickEnter s).1 = ((tickEnter s).1, []) ∧
      tickBody outcome now (tickEnter s).1 = sendScheduledMessages outcome now s := by
  obtain ⟨h1, h2, h3⟩ := tickEnter_true s h
  constructor
  · exact tick_skipped_when_processing outcome2 now2 _ (by rw [h3])
  · simp [sendScheduledMessages, h]

/-- Witness for C3 at a concrete state. -/
theorem overlapping_ticks_process_once_witness :
    (tickEnter ⟨false, true, []⟩).2 = true ∧
      (sendScheduledMessages (fun _ => none) 5 (tickEnter ⟨false, true, []⟩).1
          = ((tickEnter ⟨false, true, []⟩).1, []) ∧
        tickBody (fun _ => none) 3 (tickEnter ⟨false, true, []⟩).1
          = sendScheduledMessages (fun _ => none) 3 ⟨false, true, []⟩) :=
  ⟨by decide,
   overlapping_ticks_process_once (fun _ => none) (fun _ => none) 3 5 ⟨false, true, []⟩ (by decide)⟩

lemma findRecord_cons (r : Record) (rest : List Record) (i : Nat) :
    findRecord (r :: rest) i = if r.id = i then some r else findRecord rest i := by
  by_cases h : r.id = i
  · simp [findRecord, List.find?_cons, h]
  · simp [findRecord, List.find?_cons, h]

lemma updateMessageStatus_cons (r : Record) (rest : List Record) (i : Nat)
    (st : Status) (err : Option String) (now : Int) :
    updateMessageStatus (r :: rest) i st err now
      = (if r.id = i then { r with status := st, errorMessage := err, updatedAt := now } else r)
          :: updateMessageStatus rest i st err now := by
  by_cases h : r.id = i <;> simp [updateMessageStatus, h]

lemma findRecord_update_self (db : List Record) (i : Nat) (st : Status)
    (err : Option String) (now : Int) :
    findRecord (updateMessageStatus db i st err now) i
      = (findRecord db i).map
          fun r => { r with status := st, errorMessage := err, updatedAt := now } := by
  induction db with
  | nil => rfl
  | cons r rest ih =>
    rw [updateMessageStatus_cons, findRecord_cons, findRecord_cons]
    by_cases h : r.id = i
    · simp [h]
    · simp [h, ih]

lemma findRecord_update_other (db : List Record) (i j : Nat) (st : Status)
    (err : Option String) (now : Int) (h : j ≠ i) :
    findRecord (updateMessageStatus db j st err now) i = findRecord db i := by
  induction db with
  | nil => rfl
  | cons r rest ih =>
    rw [updateMessageStatus_cons, findRecord_cons, findRecord_cons]
    by_cases hr : r.id = j
    · have : r.id ≠ i := by rw [hr]; exact h
      simp [hr, this, h, ih]
    · by_cases hi : r.id = i
      · simp [hr, hi, Ne.symm h, ih]
      · simp [hr, hi, ih]

lemma findRecord_processMessages_other (o : Record → Option String) (now : Int) :
    ∀ (ms db : List Record) (i : Nat), (∀ m ∈ ms, m.id ≠ i) →
      findRecord (processMessages o now db ms).1 i = findRecord db i := by
  intro ms
  induction ms with
  | nil => intro db i _; rfl
  | cons m rest ih =>
    intro db i h
    have hm : m.id ≠ i := h m (List.mem_cons_self m rest)
    have hr : ∀ x ∈ rest, x.id ≠ i := fun x hx => h x (List.mem_cons_of_mem m hx)
    cases ho : o m with
    | none =>
      simp only [processMessages, ho]
      rw [ih _ _ hr, findRecord_update_other _ _ _ _ _ _ hm]
    | some e =>
      simp only [processMessages, ho]
      rw [ih _ _ hr, findRecord_update_other _ _ _ _ _ _ hm]

lemma findRecord_processMessages_mem (o : Record → Option String) (now : Int) :
    ∀ (ms db : List Record), (ms.map Record.id).Nodup →
      ∀ m ∈ ms,
        findRecord (processMessages o now db ms).1 m.id
          = (findRecord db m.id).map
              fun r => { r with
                status := if (o m).isSome then Status.failed else Status.sent,
                errorMessage := o m, updatedAt := now } := by
  intro ms
  induction ms with
  | nil => intro db _ m hm; cases hm
  | cons x rest ih =>
    intro db hnd m hm
    rw [List.map_cons] at hnd
    have hx : x.id ∉ rest.map Record.id := (List.nodup_cons.mp hnd).1
    have hndr : (rest.map Record.id).Nodup := (List.nodup_cons.mp hnd).2
    rcases List.mem_cons.mp hm with he | hr
    · subst he
      have hother : ∀ y ∈ rest, y.id ≠ m.id := by
        intro y hy hcontra
        exact hx (hcontra ▸ List.mem_map_of_mem Record.id hy)
      cases ho : o m with
      | none =>
        simp only [processMessages, ho]
        rw [findRecord_processMessages_other o now rest _ m.id hother,
          findRecord_update_self]
        simp [ho]
      | some e =>
        simp only [processMessages, ho]
        rw [findRecord_processMessages_other o now rest _ m.id hother,
          findRecord_update_self]
        simp [ho]
    · have hmx : x.id ≠ m.id := by
        intro hcontra
        exact hx (hcontra ▸ List.mem_map_of_mem Record.id hr)
      cases ho : o x with
      | none =>
        simp only [processMessages, ho]
        rw [ih _ hndr m hr, findRecord_update_other _ _ _ _ _ _ hmx]
      | some e =>
        simp only [processMessages, ho]
        rw [ih _ hndr m hr, findRecord_update_other _ _ _ _ _ _ hmx]

lemma processMessages_log (o : Record → Option String) (now : Int) :
    ∀ (ms db : List Record),
      (processMessages o now db ms).2
        = ms.map fun m => (m.id, if (o m).isSome then Status.failed else Status.sent) := by
  intro ms
  induction ms with
  | nil => intro db; rfl
  | cons m rest ih =>
    intro db
    cases ho : o m with
    | none => simp only [processMessages, ho, List.map_cons]; rw [ih]; simp [ho]
    | some e => simp only [processMessages, ho, List.map_cons]; rw [ih]; simp [ho]

lemma mem_getPendingMessages (now : Int) (db : List Record) (m : Record) :
    m ∈ getPendingMessages now db
      ↔ m ∈ db ∧ m.status = Status.pending ∧ m.scheduledTime ≤ now := by
  unfold getPendingMessages
  rw [List.mem_insertionSort, List.mem_filter]
  simp

lemma nodup_ids_getPendingMessages (now : Int) (db : List Record)
    (h : (db.map Record.id).Nodup) :
    ((getPendingMessages now db).map Record.id).Nodup := by
  unfold getPendingMessages
  have hsub : ((db.filter fun r =>
      decide (r.status = Status.pending ∧ r.scheduledTime ≤ now)).map Record.id).Sublist
      (db.map Record.id) := (List.filter_sublist db).map Record.id
  have h2 := h.sublist hsub
  have hperm := (List.perm_insertionSort byTime
    (db.filter fun r => decide (r.status = Status.pending ∧ r.scheduledTime ≤ now))).map Record.id
  exact hperm.nodup_iff.mpr h2

lemma findRecord_eq_of_mem (db : List Record) (m : Record)
    (h : (db.map Record.id).Nodup) (hm : m ∈ db) :
    findRecord db m.id = some m := by
  induction db with
  | nil => cases hm
  | cons r rest ih =>
    rw [findRecord_cons]
    rw [List.map_cons] at h
    have hh := List.nodup_cons.mp h
    rcases List.mem_cons.mp hm with he | hr
    · subst he; simp
    · have : r.id ≠ m.id := by
        intro hcontra
        exact hh.1 (hcontra ▸ List.mem_map_of_mem Record.id hr)
      simp only [this, if_false]
      exact ih hh.2 hr

/-- C4: for a tick that actually runs, the fetched due set (pending rows
with instant ≤ now) is sorted ascending by scheduled instant, it is
dispatched in exactly that order, and afterwards every fetched record is
`sent` when the outbound send succeeded and `failed` with the captured
error text when it threw — none is left `pending`. -/
theorem tick_settles_due_set (outcome : Record → Option String) (now : Int)
    (s : SchedulerState) (h1 : s.isProcessing = false) (h2 : s.clientReady = true)
    (hnd : (s.db.map Record.id).Nodup) :
    List.Sorted byTime (getPendingMessages now s.db) ∧
    (sendScheduledMessages outcome now s).2
      = (getPendingMessages now s.db).map
          (fun m => (m.id, if (outcome m).isSome then Status.failed else Status.sent)) ∧
    ∀ m ∈ getPendingMessages now s.db,
      statusOf (sendScheduledMessages outcome now s).1.db m.id
        = some (if (outcome m).isSome then Status.failed else Status.sent, outcome m) := by
  have hsorted : List.Sorted byTime (getPendingMessages now s.db) :=
    List.sorted_insertionSort byTime _
  have henter : tickEnter s = ({ s with isProcessing := true }, true) := by
    simp [tickEnter, h1, h2]
  have hrun : sendScheduledMessages outcome now s
      = tickBody outcome now { s with isProcessing := true } := by
    simp [sendScheduledMessages, henter]
  refine ⟨hsorted, ?_, ?_⟩
  · rw [hrun]
    unfold tickBody
    by_cases hemp : (getPendingMessages now s.db).isEmpty
    · simp only [hemp, if_true]
      rw [List.isEmpty_iff] at hemp
      simp [hemp]
    · simp only [hemp, if_false]
      exact processMessages_log outcome now _ _
  · intro m hm
    rw [hrun]
    unfold tickBody
    by_cases hemp : (getPendingMessages now s.db).isEmpty
    · rw [List.isEmpty_iff] at hemp
      rw [hemp] at hm
      cases hm
    · have hfind := findRecord_processMessages_mem outcome now
        (getPendingMessages now s.db) s.db
        (nodup_ids_getPendingMessages now s.db hnd) m hm
      have hmem : m ∈ s.db := ((mem_getPendingMessages now s.db m).mp hm).1
      have hgoal : statusOf
          (processMessages outcome now s.db (getPendingMessages now s.db)).1 m.id
          = some (if (outcome m).isSome then Status.failed else Status.sent, outcome m) := by
        unfold statusOf
        rw [hfind, findRecord_eq_of_mem s.db m hnd hmem]
        rfl
      simp only [hemp, if_false]
      exact hgoal

/-- Witness for C4: a two-record store, one send succeeding and one
throwing. -/
theorem tick_settles_due_set_witness :
    ((⟨false, true,
        [⟨1, "a@c.us", "A", "m1", 10, Status.pending, none, 0⟩,
         ⟨2, "b@c.us", "B", "m2", 5, Status.pending, none, 0⟩]⟩ :
        SchedulerState).isProcessing = false ∧
      (⟨false, true,
        [⟨1, "a@c.us", "A", "m1", 10, Status.pending, none, 0⟩,
         ⟨2, "b@c.us", "B", "m2", 5, Status.pending, none, 0⟩]⟩ :
        SchedulerState).clientReady = true) ∧
    (∀ m ∈ getPendingMessages 20
        (⟨false, true,
          [⟨1, "a@c.us", "A", "m1", 10, Status.pending, none, 0⟩,
           ⟨2, "b@c.us", "B", "m2", 5, Status.pending, none, 0⟩]⟩ :
          SchedulerState).db,
      statusOf (sendScheduledMessages
          (fun r => if r.id = 1 then none else some "boom") 20
          ⟨false, true,
            [⟨1, "a@c.us", "A", "m1", 10, Status.pending, none, 0⟩,
             ⟨2, "b@c.us", "B", "m2", 5, Status.pending, none, 0⟩]⟩).1.db m.id
        = some (if ((fun (r : Record) => if r.id = 1 then none else some "boom") m).isSome
            then Status.failed else Status.sent,
            (fun (r : Record) => if r.id = 1 then none else some "boom") m)) :=
  ⟨⟨rfl, rfl⟩,
   (tick_settles_due_set (fun r => if r.id = 1 then none else some "boom") 20
      ⟨false, true,
        [⟨1, "a@c.us", "A", "m1", 10, Status.pending, none, 0⟩,
         ⟨2, "b@c.us", "B", "m2", 5, Status.pending, none, 0⟩]⟩
      rfl rfl (by decide)).2.2⟩

lemma tick_preserves_other_records (outcome : Record → Option String)
    (now : Int) (s : SchedulerState) (h1 : s.isProcessing = false)
    (h2 : s.clientReady = true) (i : Nat)
    (hothers : ∀ m ∈ getPendingMessages now s.db, m.id ≠ i) :
    findRecord (sendScheduledMessages outcome now s).1.db i = findRecord s.db i := by
  have henter : tickEnter s = ({ s with isProcessing := true }, true) := by
    simp [tickEnter, h1, h2]
  have hrun : sendScheduledMessages outcome now s
      = tickBody outcome now { s with isProcessing := true } := by
    simp [sendScheduledMessages, henter]
  rw [hrun]
  unfold tickBody
  by_cases hemp : (getPendingMessages now s.db).isEmpty
  · simp only [hemp, if_true]
  · have hgoal : findRecord
        (processMessages outcome now s.db (getPendingMessages now s.db)).1 i
        = findRecord s.db i :=
      findRecord_processMessages_other outcome now _ _ i hothers
    simp only [hemp, if_false]
    exact hgoal

/-- C1 counterexample: `/cancel` applied to a record whose status is
already `sent` changes that status to `cancelled` — the claimed
no-transition-out-of-terminal-state invariant fails. -/
theorem cancel_overwrites_sent_counterexample :
    statusOf [⟨5, "x@c.us", "X", "m", 0, Status.sent, none, 0⟩] 5
      = some (Status.sent, none) ∧
    statusOf (handleIncomingMessage baseEnv
        { emptyState with db := [⟨5, "x@c.us", "X", "m", 0, Status.sent, none, 0⟩] }
        (ownerMsg "c1" "/cancel 5")).1.db 5
      = some (Status.cancelled, some "Cancelled by user") := by
  constructor
  · rfl
  · rfl

/-- C1 amended: the scheduler dispatch changes only records that were
fetched as due (pending with instant ≤ now) — every other row is
untouched — and moves each fetched record from `pending` to `sent` or
`failed`; the explicit `/cancel` update, however, sets the addressed
record's status to `cancelled` unconditionally, whatever its current
status (so terminal statuses are not protected against cancel). -/
theorem status_transition_discipline (outcome : Record → Option String)
    (now : Int) (s : SchedulerState) (h1 : s.isProcessing = false)
    (h2 : s.clientReady = true) (hnd : (s.db.map Record.id).Nodup) :
    (∀ i : Nat, (∀ m ∈ getPendingMessages now s.db, m.id ≠ i) →
      findRecord (sendScheduledMessages outcome now s).1.db i = findRecord s.db i) ∧
    (∀ m ∈ getPendingMessages now s.db,
      m.status = Status.pending ∧
        statusOf (sendScheduledMessages outcome now s).1.db m.id
          = some (if (outcome m).isSome then Status.failed else Status.sent, outcome m)) ∧
    (∀ (db : List Record) (t : Int) (i : Nat) (r : Record),
      r ∈ updateMessageStatus db i Status.cancelled (some "Cancelled by user") t →
        (r.id = i ∧ r.status = Status.cancelled) ∨ (r.id ≠ i ∧ r ∈ db)) := by
  refine ⟨?_, ?_, ?_⟩
  · intro i hothers
    exact tick_preserves_other_records outcome now s h1 h2 i hothers
  · intro m hm
    refine ⟨((mem_getPendingMessages now s.db m).mp hm).2.1, ?_⟩
    exact (tick_settles_due_set outcome now s h1 h2 hnd).2.2 m hm
  · intro db t i r hr
    unfold updateMessageStatus at hr
    rcases List.mem_map.mp hr with ⟨x, hx, hfx⟩
    by_cases hid : x.id = i
    · left
      rw [if_pos hid] at hfx
      subst hfx
      exact ⟨hid, rfl⟩
    · right
      rw [if_neg hid] at hfx
      subst hfx
      exact ⟨hid, hx⟩

/-- Witness for C1's amended theorem at a concrete scheduler state. -/
theorem status_transition_discipline_witness :
    ((⟨false, true, [⟨1, "a@c.us", "A", "m1", 10, Status.pending, none, 0⟩]⟩ :
        SchedulerState).isProcessing = false ∧
      ((⟨false, true, [⟨1, "a@c.us", "A", "m1", 10, Status.pending, none, 0⟩]⟩ :
        SchedulerState).db.map Record.id).Nodup) ∧
    (∀ (db : List Record) (t : Int) (i : Nat) (r : Record),
      r ∈ updateMessageStatus db i Status.cancelled (some "Cancelled by user") t →
        (r.id = i ∧ r.status = Status.cancelled) ∨ (r.id ≠ i ∧ r ∈ db)) :=
  ⟨⟨rfl, by decide⟩,
   (status_transition_discipline (fun _ => none) 20
      ⟨false, true, [⟨1, "a@c.us", "A", "m1", 10, Status.pending, none, 0⟩]⟩
      rfl rfl (by decide)).2.2⟩

/-- C2 counterexample: a `/send` command whose resolved instant is in the
past (21600000 ≤ now) is *not* dropped — a record is created and a
confirmation is emitted, so the past-instant precondition does not hold on
the `/send` path. -/
theorem send_past_instant_counterexample :
    (parseSendCommand sendPastEnv.chronoParse "/send John at 8 Good morning").map
        (fun p => p.scheduledTime) = some 21600000 ∧
    (21600000 : Int) ≤ sendPastEnv.now ∧
    (handleIncomingMessage sendPastEnv emptyState
        (ownerMsg "s1" "/send John at 8 Good morning")).1.db.map
        (fun r => (r.recipient, r.scheduledTime, r.status))
      = [("john@c.us", 21600000, Status.pending)] ∧
    (handleIncomingMessage sendPastEnv emptyState
        (ownerMsg "s1" "/send John at 8 Good morning")).2.length = 1 := by
  refine ⟨rfl, by decide, rfl, rfl⟩

/-- C2 amended: only the `/reply` path enforces the future-instant
precondition — its persist step drops the command (no record, no output)
when the resolved instant is not strictly after evaluation time — while
the `/send` path, on a unique contact match, saves the record and emits
its confirmation with no check of the resolved instant against the
current time. -/
theorem past_instant_checked_only_in_reply
    (env : Env) (s : HandlerState) (msg : MsgEvent) (parsed : ParsedReply)
    (recipientId : String) (hpast : parsed.scheduledTime ≤ env.now)
    (env2 : Env) (s2 : HandlerState) (msg2 : MsgEvent) (body : String)
    (p : ParsedSend) (c : Contact)
    (hstart : jsStartsWith (jsToLower body) "/send" = true)
    (hparse : parseSendCommand env2.chronoParse body = some p)
    (hfilter : env2.recentContacts.filter (fun ct =>
        containsSubstr (jsToLower ct.name) (jsToLower p.recipientName)
          || containsSubstr ct.number (jsToLower p.recipientName)) = [c])
    (hsave : env2.saveOk = true) :
    replyPersist env s msg parsed recipientId = (s, []) ∧
    (commandDispatch env2 s2 msg2 body).1.db
        = s2.db ++ [pendingRow s2.nextId c.id c.name p.message p.scheduledTime env2.now] ∧
    (commandDispatch env2 s2 msg2 body).2
        = ["✅ Message scheduled!\n\n📧 To: *" ++ c.name ++ "*\n💬 Message: \""
            ++ p.message ++ "\"\n⏰ Time: " ++ formatIsraelTime p.scheduledTime] := by
  refine ⟨?_, ?_⟩
  · simp only [replyPersist, if_pos hpast]
  · have hsc : sendCommand env2 s2 msg2 body
        = ({ s2 with
              db := s2.db ++ [pendingRow s2.nextId c.id c.name p.message p.scheduledTime env2.now],
              nextId := s2.nextId + 1 },
           ["✅ Message scheduled!\n\n📧 To: *" ++ c.name ++ "*\n💬 Message: \""
             ++ p.message ++ "\"\n⏰ Time: " ++ formatIsraelTime p.scheduledTime]) := by
      simp only [sendCommand, hparse, hfilter, hsave, if_true, saveScheduledMessage, pendingRow]
    constructor
    · simp only [commandDispatch, hstart, if_true, hsc]
    · simp only [commandDispatch, hstart, if_true, hsc]

/-- Witness for C2's amended theorem, with the `/send` instance resolved
at a past instant. -/
theorem past_instant_checked_only_in_reply_witness :
    ((21600000 : Int) ≤ baseEnv.now ∧
      jsStartsWith (jsToLower "/send John at 8 Good morning") "/send" = true ∧
      sendPastEnv.saveOk = true) ∧
    (replyPersist baseEnv emptyState (ownerMsg "w2" "/reply x")
        { scheduledTime := 21600000, message := "hey", timeString := "at 8",
          originalText := "/reply x", recipient := none } "john@c.us"
      = (emptyState, [])) := by
  refine ⟨⟨by decide, rfl, rfl⟩, ?_⟩
  exact (past_instant_checked_only_in_reply baseEnv emptyState
    (ownerMsg "w2" "/reply x")
    { scheduledTime := 21600000, message := "hey", timeString := "at 8",
      originalText := "/reply x", recipient := none }
    "john@c.us" (by decide)
    sendPastEnv emptyState (ownerMsg "w2b" "/send John at 8 Good morning")
    "/send John at 8 Good morning"
    { scheduledTime := 21600000, message := "Good morning", timeString := "at 8",
      originalText := "/send John at 8 Good morning", recipientName := "John" }
    johnContact rfl (by decide) (by decide) rfl).1

lemma alookup_cons {α : Type} (q : String × α) (rest : List (String × α))
    (k : String) :
    alookup (q :: rest) k = if q.1 = k then some q.2 else alookup rest k := by
  unfold alookup
  rw [List.find?_cons]
  by_cases h : q.1 = k
  · have hb : (q.1 == k) = true := beq_iff_eq.mpr h
    rw [hb, if_pos h]
    rfl
  · have hb : (q.1 == k) = false := beq_eq_false_iff_ne.mpr h
    rw [hb, if_neg h]

lemma alookup_eq_none {α : Type} (m : List (String × α)) (k : String)
    (h : k ∉ m.map Prod.fst) : alookup m k = none := by
  induction m with
  | nil => rfl
  | cons q rest ih =>
    rw [List.map_cons] at h
    have h1 : q.1 ≠ k := fun he => h (by simp [he])
    have h2 : k ∉ rest.map Prod.fst := fun he => h (by simp [he])
    rw [alookup_cons, if_neg h1]
    exact ih h2

lemma keys_cleanup_subset (cache : List (String × List CacheEntry)) (now : Int)
    (k : String) (h : k ∈ (Part005.cleanupMessageCache cache now).map Prod.fst) :
    k ∈ cache.map Prod.fst := by
  rcases List.mem_map.mp h with ⟨p, hp, hfst⟩
  rcases List.mem_filterMap.mp hp with ⟨q, hq, hf⟩
  by_cases hemp : (q.2.filter fun m =>
      decide (now - Part005.MESSAGE_CACHE_DURATION < m.timestamp)).isEmpty
  · rw [if_pos hemp] at hf; cases hf
  · rw [if_neg hemp] at hf
    have hpq := Option.some.inj hf
    have : q.1 = k := by rw [← hfst, ← hpq]
    exact this ▸ List.mem_map_of_mem Prod.fst hq

lemma alookup_cleanup (cache : List (String × List CacheEntry)) (now : Int)
    (body : String) (h : (cache.map Prod.fst).Nodup) :
    alookup (Part005.cleanupMessageCache cache now) body
      = (alookup cache body).bind (fun ms =>
          let r := ms.filter fun m =>
            decide (now - Part005.MESSAGE_CACHE_DURATION < m.timestamp)
          if r.isEmpty then none else some r) := by
  induction cache with
  | nil => rfl
  | cons q rest ih =>
    rw [List.map_cons] at h
    have h1 : q.1 ∉ rest.map Prod.fst := (List.nodup_cons.mp h).1
    have h2 := (List.nodup_cons.mp h).2
    unfold Part005.cleanupMessageCache
    rw [List.filterMap_cons]
    by_cases hk : q.1 = body
    · subst hk
      rw [alookup_cons, if_pos rfl]
      by_cases hemp : (q.2.filter fun m =>
          decide (now - Part005.MESSAGE_CACHE_DURATION < m.timestamp)).isEmpty
      · rw [if_pos hemp]
        have hrest : alookup (Part005.cleanupMessageCache rest now) q.1 = none := by
          apply alookup_eq_none
          intro hmem
          exact h1 (keys_cleanup_subset rest now q.1 hmem)
        unfold Part005.cleanupMessageCache at hrest
        rw [hrest]
        simp only [Option.bind]
        rw [if_pos hemp]
      · rw [if_neg hemp]
        rw [alookup_cons, if_pos rfl]
        simp only [Option.bind]
        rw [if_neg hemp]
    · by_cases hemp : (q.2.filter fun m =>
          decide (now - Part005.MESSAGE_CACHE_DURATION < m.timestamp)).isEmpty
      · rw [if_pos hemp]
        rw [alookup_cons, if_neg hk]
        unfold Part005.cleanupMessageCache at ih
        exact ih h2
      · rw [if_neg hemp]
        rw [alookup_cons, alookup_cons]
        simp only [if_neg hk]
        unfold Part005.cleanupMessageCache at ih
        exact ih h2

/-- C5: a correlator lookup returns exactly the cached entries for the
exact text whose timestamp lies inside the retention window; the periodic
purge leaves only in-window entries in the cache; and purging does not
change any lookup's result (so the purge removes exactly the expired
entries, independently of lookups). -/
theorem correlator_lookup_and_purge :
    (∀ (cache : List (String × List CacheEntry)) (body : String) (now : Int),
      Part005.searchCachedMessages cache body now
        = ((alookup cache body).getD []).filter
            (fun m => decide (now - Part005.MESSAGE_CACHE_DURATION < m.timestamp))) ∧
    (∀ (cache : List (String × List CacheEntry)) (now : Int) (p : String × List CacheEntry),
      p ∈ Part005.cleanupMessageCache cache now → ∀ e ∈ p.2,
        now - Part005.MESSAGE_CACHE_DURATION < e.timestamp) ∧
    (∀ (cache : List (String × List CacheEntry)) (now : Int) (body : String),
      (cache.map Prod.fst).Nodup →
      Part005.searchCachedMessages (Part005.cleanupMessageCache cache now) body now
        = Part005.searchCachedMessages cache body now) := by
  refine ⟨?_, ?_, ?_⟩
  · intro cache body now
    unfold Part005.searchCachedMessages
    cases h : alookup cache body with
    | none => rfl
    | some ms => rfl
  · intro cache now p hp e he
    unfold Part005.cleanupMessageCache at hp
    rcases List.mem_filterMap.mp hp with ⟨q, hq, hf⟩
    by_cases hemp : (q.2.filter fun m =>
        decide (now - Part005.MESSAGE_CACHE_DURATION < m.timestamp)).isEmpty
    · rw [if_pos hemp] at hf; cases hf
    · rw [if_neg hemp] at hf
      have hpq := Option.some.inj hf
      rw [← hpq] at he
      have := List.of_mem_filter he
      simpa using this
  · intro cache now body h
    unfold Part005.searchCachedMessages
    rw [alookup_cleanup cache now body h]
    cases halo : alookup cache body with
    | none => rfl
    | some ms =>
      simp only [Option.bind]
      by_cases hemp : (ms.filter fun m =>
          decide (now - Part005.MESSAGE_CACHE_DURATION < m.timestamp)).isEmpty
      · rw [if_pos hemp]
        rw [List.isEmpty_iff] at hemp
        rw [hemp]
      · rw [if_neg hemp]
        simp [List.filter_filter]

/-- Witness for C5 at a cache holding one expired and one live entry. -/
theorem correlator_lookup_and_purge_witness :
    (fixtureCache.map Prod.fst).Nodup ∧
    Part005.searchCachedMessages (Part005.cleanupMessageCache fixtureCache 10800100)
        "hello" 10800100
      = Part005.searchCachedMessages fixtureCache "hello" 10800100 :=
  ⟨by decide,
   correlator_lookup_and_purge.2.2 fixtureCache 10800100 "hello" (by decide)⟩

/-- The unrolled weekday loop lands on the unique day with the target
weekday among the seven days beginning at the baseline. -/
lemma advanceToDow_spec (base target : Int) (h0 : 0 ≤ target) (h7 : target < 7) :
    isUniqueDowInWindow base target (advanceToDow base target) := by
  unfold isUniqueDowInWindow advanceToDow dayOfWeek
  split_ifs with h1 h2 h3 h4 h5 h6
  all_goals exact ⟨by omega, by omega, by omega, fun x hx1 hx2 hx3 => by omega⟩

/-- C6: when `parseTimeCommand` classifies the phrase as absolute (the
relative-duration regexes do not match the time string), the scheduled
instant is the recognizer's naive wall-clock result minus the civil
timezone offset: 3 h when the instant lies inside the DST window of the
result's year — from the unique Friday in the 7 days beginning March 26
(midnight) up to, exclusively, the unique Sunday in the 7 days beginning
October 25 — and 2 h otherwise. -/
theorem absolute_time_resolution (chronoParse : String → Option ChronoMatch)
    (text : String) (m : ChronoMatch) (res : ParsedReply)
    (hchrono : chronoParse (replyRecTime text).2 = some m)
    (hp : parseTimeCommand chronoParse text = some res)
    (habs : hasRelativePattern (jsToLower res.timeString) = false) :
    ∃ dstS dstE : Int,
      isUniqueDowInWindow (daysFromCivil m.date.year 3 26) 5 dstS ∧
      isUniqueDowInWindow (daysFromCivil m.date.year 10 25) 0 dstE ∧
      res.scheduledTime = m.date.toMillis
        - (if dstS * msPerDay ≤ m.date.toMillis ∧ m.date.toMillis < dstE * msPerDay
            then 180 else 120) * 60 * 1000 := by
  refine ⟨advanceToDow (daysFromCivil m.date.year 3 26) 5,
    advanceToDow (daysFromCivil m.date.year 10 25) 0,
    advanceToDow_spec _ 5 (by omega) (by omega),
    advanceToDow_spec _ 0 (by omega) (by omega), ?_⟩
  unfold parseTimeCommand at hp
  dsimp only at hp
  rw [hchrono] at hp
  dsimp only at hp
  set cs := (replyRecTime text).2.toList with hcs
  by_cases hm : (jsTrim (String.mk (cs.drop (m.index + m.text.length)))).isEmpty
  · rw [if_pos hm] at hp
    cases hp
  · rw [if_neg hm] at hp
    have hres := Option.some.inj hp
    have hts : res.timeString = String.mk (cs.take (m.index + m.text.length)) := by
      rw [← hres]
    have hst : res.scheduledTime
        = if hasRelativePattern (jsToLower (String.mk (cs.take (m.index + m.text.length))))
          then m.date.toMillis else convertFromIsraelTimeToUTC m.date := by
      rw [← hres]
    rw [hts] at habs
    rw [hst, habs]
    simp only [Bool.false_eq_true, if_false]
    unfold convertFromIsraelTimeToUTC getIsraelTimezoneOffset
    ring

/-- Witness for C6: "tomorrow at 9 Hello" with the recognizer returning
naive 2025-05-10 09:00 (inside the DST window). -/
theorem absolute_time_resolution_witness :
    ((fun s => if s = "tomorrow at 9 Hello" then
        some ({ index := 0, text := "tomorrow at 9",
                date := { year := 2025, month := 5, day := 10,
                          hour := 9, minute := 0, second := 0 } } : ChronoMatch)
      else none) (replyRecTime "/reply tomorrow at 9 Hello").2
      = some { index := 0, text := "tomorrow at 9",
               date := { year := 2025, month := 5, day := 10,
                         hour := 9, minute := 0, second := 0 } } ∧
     hasRelativePattern (jsToLower "tomorrow at 9") = false) ∧
    (∃ dstS dstE : Int,
      isUniqueDowInWindow (daysFromCivil 2025 3 26) 5 dstS ∧
      isUniqueDowInWindow (daysFromCivil 2025 10 25) 0 dstE ∧
      (1746856800000 : Int) = (1746867600000 : Int)
        - (if dstS * msPerDay ≤ (1746867600000 : Int) ∧ (1746867600000 : Int) < dstE * msPerDay
            then 180 else 120) * 60 * 1000) :=
  ⟨⟨by decide, by decide⟩,
   absolute_time_resolution
     (fun s => if s = "tomorrow at 9 Hello" then
        some { index := 0, text := "tomorrow at 9",
               date := { year := 2025, month := 5, day := 10,
                         hour := 9, minute := 0, second := 0 } }
      else none)
     "/reply tomorrow at 9 Hello"
     { index := 0, text := "tomorrow at 9",
       date := { year := 2025, month := 5, day := 10,
                 hour := 9, minute := 0, second := 0 } }
     { scheduledTime := 1746856800000, message := "Hello",
       timeString := "tomorrow at 9",
       originalText := "/reply tomorrow at 9 Hello", recipient := none }
     (by decide) (by decide) (by decide)⟩

/-- C7 counterexample: a `/reply to <name>` whose free-text name matches
no contact terminates with *no* notification to the owner — the handler
returns silently (only the message id is marked processed), the store is
unchanged, and the available forwarded context is not consulted.  This
refutes the claim that every failed explicit-token resolution notifies
the owner. -/
theorem name_search_failure_silent_counterexample :
    handleIncomingMessage nameFailEnv
        { emptyState with lastForwardedMessage := [("me@g.us", bobCtx)] }
        (ownerMsg "n1" "/reply to zzz in 5 minutes hi")
      = ({ emptyState with
            lastForwardedMessage := [("me@g.us", bobCtx)],
            processedMessageIds := ["n1"] }, []) := by
  rfl

/-- C7 amended: an out-of-range contact index terminates resolution with a
conversational error naming the valid range, while a free-text name with
no case-insensitive substring match terminates resolution silently (no
owner notification); in both cases the terminal result of the explicit
token strategy is the whole command's result — no later strategy runs. -/
theorem explicit_token_failure_terminal :
    (∀ (env : Env) (s : HandlerState) (rec : String),
      isIndexToken rec = true →
      ((env.recentContacts.length : Int) ≤ (parseNatDigits rec : Int) - 1 ∨
        (parseNatDigits rec : Int) - 1 < 0) →
      resolveExplicit env s rec
        = Sum.inl (s, ["❌ Invalid contact number: " ++ rec
            ++ "\n\nValid range: 1-" ++ toString env.recentContacts.length
            ++ "\n\nSend /list to see your contacts."])) ∧
    (∀ (env : Env) (s : HandlerState) (rec : String) (contacts : List WContact),
      isIndexToken rec = false → isPhoneToken rec = false →
      env.allContacts = some contacts →
      contacts.find? (fun c => wcontactNameMatches c rec) = none →
      resolveExplicit env s rec = Sum.inl (s, [])) ∧
    (∀ (env : Env) (s : HandlerState) (msg : MsgEvent) (body : String)
        (parsed : ParsedReply) (rec : String) (out : HandlerState × List String),
      parseTimeCommand env.chronoParse body = some parsed →
      parsed.recipient = some rec →
      resolveExplicit env s rec = Sum.inl out →
      replyCommand env s msg body = out) := by
  refine ⟨?_, ?_, ?_⟩
  · intro env s rec hidx hoob
    unfold resolveExplicit
    simp only [hidx, if_true]
    rw [if_neg (by omega)]
  · intro env s rec contacts hni hnp hac hnm
    unfold resolveExplicit
    simp only [hni, hnp, Bool.false_eq_true, if_false, hac]
    rw [hnm]
  · intro env s msg body parsed rec out hp hrec hres
    unfold replyCommand
    rw [hp]
    dsimp only
    rw [hrec]
    dsimp only
    rw [hres]

/-- Witness for C7's amended theorem: the silent name-search failure is
propagated as the whole `/reply` result. -/
theorem explicit_token_failure_terminal_witness :
    (parseTimeCommand nameFailEnv.chronoParse "/reply to zzz in 5 minutes hi"
        = some { scheduledTime := 1893456000000, message := "hi",
                 timeString := "in 5 minutes",
                 originalText := "/reply to zzz in 5 minutes hi",
                 recipient := some "zzz" } ∧
      resolveExplicit nameFailEnv emptyState "zzz" = Sum.inl (emptyState, [])) ∧
    replyCommand nameFailEnv emptyState (ownerMsg "n2" "/reply to zzz in 5 minutes hi")
        "/reply to zzz in 5 minutes hi"
      = (emptyState, []) :=
  ⟨⟨by decide, by decide⟩,
   explicit_token_failure_terminal.2.2 nameFailEnv emptyState
     (ownerMsg "n2" "/reply to zzz in 5 minutes hi")
     "/reply to zzz in 5 minutes hi"
     { scheduledTime := 1893456000000, message := "hi",
       timeString := "in 5 minutes",
       originalText := "/reply to zzz in 5 minutes hi",
       recipient := some "zzz" }
     "zzz" (emptyState, []) (by decide) rfl (by decide)⟩

lemma resolveExplicit_inl_state (env : Env) (s : HandlerState) (rec : String)
    (out : HandlerState × List String) (h : resolveExplicit env s rec = Sum.inl out) :
    out.1 = s := by
  unfold resolveExplicit at h
  dsimp only at h
  split at h
  · split at h
    · split at h
      · cases h
      · cases h; rfl
    · cases h; rfl
  · split at h
    · cases h
    · split at h
      · cases h; rfl
      · split at h
        · cases h
        · cases h; rfl

lemma processed_replyPersist (env : Env) (s : HandlerState) (msg : MsgEvent)
    (parsed : ParsedReply) (rid : String) :
    (replyPersist env s msg parsed rid).1.processedMessageIds
      = s.processedMessageIds := by
  unfold replyPersist saveScheduledMessage
  dsimp only
  split <;> first
    | rfl
    | (split <;> rfl)

lemma processed_replyCommand (env : Env) (s : HandlerState) (msg : MsgEvent)
    (body : String) :
    (replyCommand env s msg body).1.processedMessageIds
      = s.processedMessageIds := by
  unfold replyCommand
  cases hp : parseTimeCommand env.chronoParse body with
  | none => rfl
  | some parsed =>
    dsimp only
    cases hrec : parsed.recipient with
    | some rec =>
      cases hres : resolveExplicit env s rec with
      | inl out =>
        simp only [hrec, hres]
        rw [resolveExplicit_inl_state env s rec out hres]
      | inr rid =>
        simp only [hrec, hres]
        exact processed_replyPersist env s msg parsed rid
    | none =>
      cases hq : resolveQuoted env msg with
      | some r =>
        simp only [hrec, hq]
        exact processed_replyPersist env s msg parsed r
      | none =>
        cases halo : alookup s.lastForwardedMessage msg.chatId with
        | some fc =>
          simp only [hrec, hq, halo]
          exact processed_replyPersist env s msg parsed fc.fromId
        | none =>
          simp only [hrec, hq, halo]
          split <;> rfl

lemma processed_cancelCommand (env : Env) (s : HandlerState) (body : String) :
    (cancelCommand env s body).1.processedMessageIds = s.processedMessageIds := by
  unfold cancelCommand
  dsimp only
  split <;> rfl

lemma processed_sendCommand (env : Env) (s : HandlerState) (msg : MsgEvent)
    (body : String) :
    (sendCommand env s msg body).1.processedMessageIds = s.processedMessageIds := by
  unfold sendCommand saveScheduledMessage
  cases hp : parseSendCommand env.chronoParse body with
  | none => rfl
  | some parsed =>
    dsimp only
    split <;> first
    | rfl
    | (split <;> rfl)

lemma processed_listCommand (env : Env) (s : HandlerState) :
    (listCommand env s).1.processedMessageIds = s.processedMessageIds := by
  unfold listCommand
  split <;> rfl

lemma processed_showCommand (env : Env) (s : HandlerState) :
    (showCommand env s).1.processedMessageIds = s.processedMessageIds := by
  unfold showCommand
  dsimp only
  split <;> rfl

lemma processed_commandDispatch (env : Env) (s : HandlerState) (msg : MsgEvent)
    (body : String) :
    (commandDispatch env s msg body).1.processedMessageIds
      = s.processedMessageIds := by
  unfold commandDispatch
  split
  · exact processed_sendCommand _ _ _ _
  · split
    · exact processed_listCommand _ _
    · split
      · exact processed_showCommand _ _
      · split
        · exact processed_cancelCommand _ _ _
        · split
          · rfl
          · exact processed_replyCommand _ _ _ _

lemma processed_sendSelection (env : Env) (s : HandlerState) (msg : MsgEvent)
    (body : String) (sc : SendContext) :
    (sendSelection env s msg body sc).1.processedMessageIds
      = s.processedMessageIds := by
  unfold sendSelection saveScheduledMessage
  dsimp only
  split <;> first
    | rfl
    | (split <;> first
        | rfl
        | (split <;> rfl))

lemma processed_sendSelectionCheck (env : Env) (s : HandlerState)
    (msg : MsgEvent) (body : String) :
    (sendSelectionCheck env s msg body).1.processedMessageIds
      = s.processedMessageIds := by
  unfold sendSelectionCheck
  split
  · split
    · exact processed_sendSelection _ _ _ _ _
    · exact processed_commandDispatch _ _ _ _
  · exact processed_commandDispatch _ _ _ _

lemma processed_fwdSelection (s : HandlerState) (msg : MsgEvent)
    (body : String) (fc : FwdContext) (opts : List MatchOpt) :
    (fwdSelection s msg body fc opts).1.processedMessageIds
      = s.processedMessageIds := by
  unfold fwdSelection
  dsimp only
  split <;> first
    | rfl
    | (split <;> rfl)

lemma processed_forwardedBranch (s : HandlerState) (msg : MsgEvent)
    (body : String) :
    (forwardedBranch s msg body).1.processedMessageIds
      = s.processedMessageIds := by
  unfold forwardedBranch
  dsimp only
  split <;> rfl

lemma processed_processUser (env : Env) (s : HandlerState) (msg : MsgEvent)
    (body : String) :
    (processUser env s msg body).1.processedMessageIds
      = s.processedMessageIds := by
  unfold processUser
  split
  · exact processed_forwardedBranch _ _ _
  · split
    · split
      · split
        · exact processed_fwdSelection _ _ _ _ _
        · exact processed_sendSelectionCheck _ _ _ _
      · exact processed_sendSelectionCheck _ _ _ _
    · exact processed_sendSelectionCheck _ _ _ _

lemma processed_ownerGate (env : Env) (s : HandlerState) (msg : MsgEvent)
    (body : String) :
    (ownerGate env s msg body).1.processedMessageIds
      = s.processedMessageIds := by
  unfold ownerGate
  cases hg : env.dedicatedGroupId with
  | some gid =>
    dsimp only
    split
    all_goals
      try dsimp only
      split
      · rfl
      · split
        · exact processed_processUser _ _ _ _
        · rfl
  | none =>
    dsimp only
    split
    · split <;> rfl
    · exact processed_processUser _ _ _ _

lemma handle_duplicate_skip (env : Env) (s : HandlerState) (e : MsgEvent)
    (mid : String) (hid : e.idSerialized = some mid)
    (hdup : s.processedMessageIds.contains mid = true) :
    handleIncomingMessage env s e = (s, []) := by
  unfold handleIncomingMessage
  rw [hid]
  simp only [hdup, if_true]

lemma processed_mem_after_handle (env : Env) (s : HandlerState) (e : MsgEvent)
    (mid : String) (hid : e.idSerialized = some mid)
    (hnotold : ∀ ts, e.timestamp = some ts → ¬ ts * 1000 < env.serverStartTime) :
    mid ∈ (handleIncomingMessage env s e).1.processedMessageIds := by
  cases hdup : s.processedMessageIds.contains mid with
  | true =>
    rw [handle_duplicate_skip env s e mid hid hdup]
    simpa using hdup
  | false =>
    unfold handleIncomingMessage
    rw [hid]
    simp only [hdup, Bool.false_eq_true, if_false]
    have hold : (match e.timestamp with
        | some ts => decide (ts * 1000 < env.serverStartTime)
        | none => false) = false := by
      cases ht : e.timestamp with
      | none => rfl
      | some ts => simpa using hnotold ts ht
    rw [hold]
    simp only [Bool.false_eq_true, if_false, hid]
    have hmem : mid ∈ (mid :: s.processedMessageIds) := List.mem_cons_self mid _
    split
    · exact hmem
    · split
      · exact hmem
      · split
        · exact hmem
        · split
          · exact hmem
          · rw [processed_ownerGate]
            exact hmem

/-- C9: an inbound event's message identifier is processed at most once:
after any handling of an event bearing identifier `mid` (whose timestamp,
if any, is not older than the server start), a second event carrying the
same identifier is a complete no-op — the handler returns with the state
unchanged (no cache insertion, no command processing) and sends nothing. -/
theorem duplicate_message_id_ignored (env env2 : Env) (s : HandlerState)
    (e e2 : MsgEvent) (mid : String)
    (hid : e.idSerialized = some mid) (hid2 : e2.idSerialized = some mid)
    (hnotold : ∀ ts, e.timestamp = some ts → ¬ ts * 1000 < env.serverStartTime) :
    handleIncomingMessage env2 (handleIncomingMessage env s e).1 e2
      = ((handleIncomingMessage env s e).1, []) := by
  apply handle_duplicate_skip env2 _ e2 mid hid2
  simpa using processed_mem_after_handle env s e mid hid hnotold

/-- Witness for C9: handling the same owner message twice; the second pass
leaves the state untouched and emits nothing. -/
theorem duplicate_message_id_ignored_witness :
    ((ownerMsg "d1" "/list").idSerialized = some "d1" ∧
      (∀ ts, (ownerMsg "d1" "/list").timestamp = some ts
        → ¬ ts * 1000 < baseEnv.serverStartTime)) ∧
    handleIncomingMessage baseEnv
        (handleIncomingMessage baseEnv emptyState (ownerMsg "d1" "/list")).1
        (ownerMsg "d1" "/list")
      = ((handleIncomingMessage baseEnv emptyState (ownerMsg "d1" "/list")).1, []) :=
  ⟨⟨rfl, by intro ts hts; cases Option.some.inj hts; decide⟩,
   duplicate_message_id_ignored baseEnv baseEnv emptyState
     (ownerMsg "d1" "/list") (ownerMsg "d1" "/list") "d1" rfl rfl
     (by intro ts hts; cases Option.some.inj hts; decide)⟩

lemma alookup_map_set {α : Type} (m : List (String × α)) (k : String) (v : α) :
    alookup (m.map fun p => if p.1 == k then (k, v) else p) k
      = if (m.find? fun p => p.1 == k).isSome then some v else none := by
  induction m with
  | nil => rfl
  | cons q rest ih =>
    rw [List.map_cons, List.find?_cons]
    by_cases hq : q.1 = k
    · have hb : (q.1 == k) = true := beq_iff_eq.mpr hq
      rw [hb, if_pos rfl, alookup_cons, if_pos rfl]
      rfl
    · have hb : (q.1 == k) = false := beq_eq_false_iff_ne.mpr hq
      rw [hb, if_neg (by simp), alookup_cons, if_neg hq, ih]

lemma alookup_append_single {α : Type} (m : List (String × α)) (k : String)
    (v : α) (h : (m.find? fun p => p.1 == k) = none) :
    alookup (m ++ [(k, v)]) k = some v := by
  induction m with
  | nil =>
    rw [List.nil_append, alookup_cons]
    exact if_pos rfl
  | cons q rest ih =>
    rw [List.find?_cons] at h
    by_cases hq : q.1 = k
    · have hb : (q.1 == k) = true := beq_iff_eq.mpr hq
      rw [hb] at h
      simp at h
    · have hb : (q.1 == k) = false := beq_eq_false_iff_ne.mpr hq
      rw [hb] at h
      rw [List.cons_append, alookup_cons, if_neg hq]
      exact ih h

lemma alookup_aset_self {α : Type} (m : List (String × α)) (k : String) (v : α) :
    alookup (aset m k v) k = some v := by
  unfold aset
  by_cases h : (m.find? fun p => p.1 == k).isSome
  · rw [if_pos h, alookup_map_set, if_pos h]
  · rw [if_neg h]
    exact alookup_append_single m k v (Option.not_isSome_iff_eq_none.mp h)

lemma alookup_aerase_self {α : Type} (m : List (String × α)) (k : String) :
    alookup (aerase m k) k = none := by
  apply alookup_eq_none
  intro hmem
  rcases List.mem_map.mp hmem with ⟨p, hp, hfst⟩
  have := List.of_mem_filter hp
  simp only [bne_iff_ne, ne_eq, decide_eq_true_eq] at this
  exact this (by simpa using hfst)

/-- The resolution method 2 finds nothing when the message has no quoted
message. -/
lemma resolveQuoted_no_quote (env : Env) (msg : MsgEvent)
    (h : msg.hasQuotedMsg = false) : resolveQuoted env msg = none := by
  unfold resolveQuoted
  rw [h]
  rfl

/-- Successful `/reply` persist: the record is appended, one confirmation
is emitted, and the forwarded context of this chat is erased. -/
lemma replyPersist_success (env : Env) (s : HandlerState) (msg : MsgEvent)
    (parsed : ParsedReply) (rid : String) (hsave : env.saveOk = true)
    (hfut : ¬ parsed.scheduledTime ≤ env.now) :
    replyPersist env s msg parsed rid
      = ({ s with
            db := s.db ++ [pendingRow s.nextId rid (resolveRecipientName env rid)
              parsed.message parsed.scheduledTime env.now],
            nextId := s.nextId + 1,
            lastForwardedMessage := aerase s.lastForwardedMessage msg.chatId },
         ["✅ Scheduled reply to *" ++ resolveRecipientName env rid
            ++ "*\n\n📅 Time: " ++ formatIsraelTime parsed.scheduledTime
            ++ "\n💬 Message: \"" ++ parsed.message
            ++ "\"\n\nID: " ++ toString s.nextId]) := by
  unfold replyPersist saveScheduledMessage
  rw [if_neg hfut, if_pos hsave]
  rfl

/-- A `/reply` with no explicit recipient and no quoted message takes its
recipient from the stored forwarded context. -/
lemma replyCommand_uses_fwd (env : Env) (s : HandlerState) (msg : MsgEvent)
    (body : String) (parsed : ParsedReply) (fc : FwdContext)
    (hp : parseTimeCommand env.chronoParse body = some parsed)
    (hrec : parsed.recipient = none) (hq : msg.hasQuotedMsg = false)
    (hfc : alookup s.lastForwardedMessage msg.chatId = some fc) :
    replyCommand env s msg body = replyPersist env s msg parsed fc.fromId := by
  unfold replyCommand
  rw [hp]
  dsimp only
  simp only [hrec, resolveQuoted_no_quote env msg hq, hfc]

/-- C10: after a `/reply` that persists successfully and sends its
confirmation, the forwarded-message context of that chat is deleted
(lookups find nothing), while the pending `/send` context and the
incoming-message cache are left untouched; consequently a following
`/reply` with no explicit recipient, no quote, and no stored context falls
back to the recent-contacts list prompt. -/
theorem reply_clears_forwarded_context
    (env : Env) (s : HandlerState) (msg : MsgEvent) (parsed : ParsedReply)
    (rid : String) (hsave : env.saveOk = true)
    (hfut : ¬ parsed.scheduledTime ≤ env.now)
    (env2 : Env) (s2 : HandlerState) (msg2 : MsgEvent) (body2 : String)
    (parsed2 : ParsedReply)
    (hp2 : parseTimeCommand env2.chronoParse body2 = some parsed2)
    (hrec2 : parsed2.recipient = none) (hq2 : msg2.hasQuotedMsg = false)
    (hfc2 : alookup s2.lastForwardedMessage msg2.chatId = none)
    (hcontacts2 : env2.recentContacts.isEmpty = false) :
    ((replyPersist env s msg parsed rid).1.lastForwardedMessage
        = aerase s.lastForwardedMessage msg.chatId ∧
      alookup (replyPersist env s msg parsed rid).1.lastForwardedMessage msg.chatId
        = none ∧
      (replyPersist env s msg parsed rid).1.pendingSendContext
        = s.pendingSendContext ∧
      (replyPersist env s msg parsed rid).1.incomingMessageCache
        = s.incomingMessageCache ∧
      (replyPersist env s msg parsed rid).2.length = 1) ∧
    replyCommand env2 s2 msg2 body2
      = (s2, ["📋 *Recent Contacts*\n\nSend `/reply [number] in [time] [message]`\n\n"
          ++ renderNumbered (env2.recentContacts.map fun c => c.name)
          ++ "\n💡 Example: /reply 1 in 2 hours hey there!"]) := by
  constructor
  · rw [replyPersist_success env s msg parsed rid hsave hfut]
    exact ⟨rfl, alookup_aerase_self s.lastForwardedMessage msg.chatId, rfl, rfl, rfl⟩
  · unfold replyCommand
    rw [hp2]
    dsimp only
    simp only [hrec2, resolveQuoted_no_quote env2 msg2 hq2, hfc2, hcontacts2,
      Bool.false_eq_true, if_false]

/-- Witness for C10 at a concrete state holding a forwarded context and a
pending `/send` context. -/
theorem reply_clears_forwarded_context_witness :
    (baseEnv.saveOk = true ∧
      ¬ (1893456000000 : Int) ≤ baseEnv.now ∧
      alookup emptyState.lastForwardedMessage "me@g.us" = none) ∧
    ((replyPersist baseEnv
        { emptyState with lastForwardedMessage := [("me@g.us", bobCtx)] }
        (ownerMsg "r1" "/reply in 5 minutes hi")
        { scheduledTime := 1893456000000, message := "hi",
          timeString := "in 5 minutes",
          originalText := "/reply in 5 minutes hi", recipient := none }
        "bob@c.us").1.lastForwardedMessage
      = aerase [("me@g.us", bobCtx)] "me@g.us" ∧
     alookup (replyPersist baseEnv
        { emptyState with lastForwardedMessage := [("me@g.us", bobCtx)] }
        (ownerMsg "r1" "/reply in 5 minutes hi")
        { scheduledTime := 1893456000000, message := "hi",
          timeString := "in 5 minutes",
          originalText := "/reply in 5 minutes hi", recipient := none }
        "bob@c.us").1.lastForwardedMessage "me@g.us" = none ∧
     (replyPersist baseEnv
        { emptyState with lastForwardedMessage := [("me@g.us", bobCtx)] }
        (ownerMsg "r1" "/reply in 5 minutes hi")
        { scheduledTime := 1893456000000, message := "hi",
          timeString := "in 5 minutes",
          originalText := "/reply in 5 minutes hi", recipient := none }
        "bob@c.us").1.pendingSendContext
      = ({ emptyState with lastForwardedMessage := [("me@g.us", bobCtx)] } :
          HandlerState).pendingSendContext ∧
     (replyPersist baseEnv
        { emptyState with lastForwardedMessage := [("me@g.us", bobCtx)] }
        (ownerMsg "r1" "/reply in 5 minutes hi")
        { scheduledTime := 1893456000000, message := "hi",
          timeString := "in 5 minutes",
          originalText := "/reply in 5 minutes hi", recipient := none }
        "bob@c.us").1.incomingMessageCache
      = ({ emptyState with lastForwardedMessage := [("me@g.us", bobCtx)] } :
          HandlerState).incomingMessageCache ∧
     (replyPersist baseEnv
        { emptyState with lastForwardedMessage := [("me@g.us", bobCtx)] }
        (ownerMsg "r1" "/reply in 5 minutes hi")
        { scheduledTime := 1893456000000, message := "hi",
          timeString := "in 5 minutes",
          originalText := "/reply in 5 minutes hi", recipient := none }
        "bob@c.us").2.length = 1) :=
  ⟨⟨rfl, by decide, rfl⟩,
   (reply_clears_forwarded_context baseEnv
      { emptyState with lastForwardedMessage := [("me@g.us", bobCtx)] }
      (ownerMsg "r1" "/reply in 5 minutes hi")
      { scheduledTime := 1893456000000, message := "hi",
        timeString := "in 5 minutes",
        originalText := "/reply in 5 minutes hi", recipient := none }
      "bob@c.us" rfl (by decide)
      replyEnv emptyState (ownerMsg "r2" "/reply in 5 minutes hi")
      "/reply in 5 minutes hi"
      { scheduledTime := 1893456000000, message := "hi",
        timeString := "in 5 minutes",
        originalText := "/reply in 5 minutes hi", recipient := none }
      (by decide) rfl rfl rfl (by decide)).1⟩

/-- C8: when the exact text was cached from exactly two senders, a
forwarded copy of it yields a disambiguation prompt listing exactly the
two numbered options and stores a two-element `matchOptions`; a
subsequent "2" from the same conversation rewrites the context to the
second listed sender and clears `matchOptions`; and a following `/reply`
with no explicit recipient and no quote resolves straight to that sender
through the persist step, with no further prompting. -/
theorem two_sender_disambiguation_flow
    (env env2 env3 : Env) (s : HandlerState)
    (msg msg2 msg3 : MsgEvent) (body body3 : String) (e1 e2 : CacheEntry)
    (parsed3 : ParsedReply)
    (hfwd : msg.isForwarded = true)
    (hlook : alookup s.incomingMessageCache body = some [e1, e2])
    (_hdist : e1.senderId ≠ e2.senderId)
    (hfwd2 : msg2.isForwarded = false)
    (hchat2 : msg2.chatId = msg.chatId)
    (hp3 : parseTimeCommand env3.chronoParse body3 = some parsed3)
    (hrec3 : parsed3.recipient = none)
    (hq3 : msg3.hasQuotedMsg = false)
    (hchat3 : msg3.chatId = msg2.chatId) :
    processUser env s msg body
      = ({ s with lastForwardedMessage := aset s.lastForwardedMessage msg.chatId (twoOptCtx msg body e1 e2) },
         ["❓ Found " ++ toString (2 : Nat) ++ " people who sent this message:\n\n"
            ++ renderNumbered [e1.senderName, e2.senderName]
            ++ "\nReply with the number of who you want to reply to, then use:\n/reply in [time] [message]"]) ∧
    (∀ s1 : HandlerState,
      s1 = (processUser env s msg body).1 →
      processUser env2 s1 msg2 "2"
        = ({ s1 with lastForwardedMessage := aset s1.lastForwardedMessage msg2.chatId (selCtx msg body e2) },
           ["✅ Selected: *" ++ e2.senderName
              ++ "*\n\nNow send:\n/reply in [time] [message]\n\nExample: /reply in 2 hours hey there!"])) ∧
    (∀ s2 : HandlerState,
      alookup s2.lastForwardedMessage msg2.chatId = some (selCtx msg body e2) →
      replyCommand env3 s2 msg3 body3
        = replyPersist env3 s2 msg3 parsed3 e2.senderId) := by
  have hpart1 : processUser env s msg body
      = ({ s with lastForwardedMessage := aset s.lastForwardedMessage msg.chatId (twoOptCtx msg body e1 e2) },
         ["❓ Found " ++ toString (2 : Nat) ++ " people who sent this message:\n\n"
            ++ renderNumbered [e1.senderName, e2.senderName]
            ++ "\nReply with the number of who you want to reply to, then use:\n/reply in [time] [message]"]) := by
    unfold processUser
    rw [hfwd]
    unfold forwardedBranch searchCachedMessages twoOptCtx
    rw [hlook]
    rfl
  refine ⟨hpart1, ?_, ?_⟩
  · intro s1 hs1
    rw [hpart1] at hs1
    unfold processUser
    rw [hfwd2]
    simp only [Bool.false_eq_true, if_false]
    have hfc : alookup s1.lastForwardedMessage msg2.chatId
        = some (twoOptCtx msg body e1 e2) := by
      rw [hs1, hchat2]
      exact alookup_aset_self _ _ _
    rw [hfc]
    unfold twoOptCtx
    dsimp only
    rw [if_pos (by decide)]
    unfold fwdSelection selCtx
    have hcond : (0 : Int) ≤ (parseNatDigits (jsTrim "2") : Int) - 1 ∧
        (parseNatDigits (jsTrim "2") : Int) - 1
          < (([{ chatId := e1.senderId, contactName := e1.senderName,
                 timestamp := e1.timestamp },
               { chatId := e2.senderId, contactName := e2.senderName,
                 timestamp := e2.timestamp }] : List MatchOpt).length : Int) := by
      rw [show parseNatDigits (jsTrim "2") = 2 from rfl]
      constructor <;> simp
    rw [if_pos hcond]
    rw [hchat2]
    rfl
  · intro s2 hfc2
    rw [replyCommand_uses_fwd env3 s2 msg3 body3 parsed3 _ hp3 hrec3 hq3
      (hchat3 ▸ hfc2)]
    rfl

/-- Witness for C8: text "hello" cached from Alice and Bob, then
forwarded. -/
theorem two_sender_disambiguation_flow_witness :
    (({ ownerMsg "f1" "hello" with isForwarded := true } : MsgEvent).isForwarded = true ∧
      alookup twoSenderState.incomingMessageCache "hello"
        = some [⟨"alice@c.us", "Alice", "Alice", 99000⟩,
                ⟨"bob@c.us", "Bob", "Bob", 99500⟩] ∧
      ("alice@c.us" : String) ≠ "bob@c.us") ∧
    processUser baseEnv twoSenderState
        { ownerMsg "f1" "hello" with isForwarded := true } "hello"
      = ({ twoSenderState with lastForwardedMessage := aset twoSenderState.lastForwardedMessage "me@g.us" (twoOptCtx { ownerMsg "f1" "hello" with isForwarded := true } "hello" ⟨"alice@c.us", "Alice", "Alice", 99000⟩ ⟨"bob@c.us", "Bob", "Bob", 99500⟩) },
         ["❓ Found " ++ toString (2 : Nat) ++ " people who sent this message:\n\n"
            ++ renderNumbered ["Alice", "Bob"]
            ++ "\nReply with the number of who you want to reply to, then use:\n/reply in [time] [message]"]) :=
  ⟨⟨rfl, by decide, by decide⟩,
   (two_sender_disambiguation_flow baseEnv baseEnv replyEnv twoSenderState
      { ownerMsg "f1" "hello" with isForwarded := true }
      (ownerMsg "f2" "2") (ownerMsg "f3" "/reply in 5 minutes hi")
      "hello" "/reply in 5 minutes hi"
      ⟨"alice@c.us", "Alice", "Alice", 99000⟩
      ⟨"bob@c.us", "Bob", "Bob", 99500⟩
      { scheduledTime := 1893456000000, message := "hi",
        timeString := "in 5 minutes",
        originalText := "/reply in 5 minutes hi", recipient := none }
      rfl (by decide) (by decide) rfl rfl (by decide) rfl rfl rfl).1⟩

end WSched
